import Mathlib

/-!
Verification development for the Nightshift agent host.

This file gives a shallow embedding, in Lean 4, of the parts of the
repository that the specification claims talk about:

* `scope_guard.py` — path classification, dirty-file tracking, the
  command-boundary monitor and the guarded child process;
* `backend/server.py` — the `PromptStore` (records, pending FIFO,
  persistence, crash recovery, listing), the `CodexRunner` and the
  `PromptWorker`.

Python strings stay `String`, Python `dict`s become insertion-ordered
association lists, machine integers become `Int`/`Nat`, fallible calls
return `Except`/`Option`, and external effects (clock, git, the spawned
child, the filesystem) enter as explicit oracle parameters.  Float-valued
durations (`seconds_between`) never influence any control flow that the
claims mention, so they are abstracted by a parameter
`sb : Option String → Option String → Option Int` threaded to the
operations that call `seconds_between`.
-/

/-! ## Python string helpers -/

/-- Whitespace characters removed by Python `str.strip()` (ASCII range). -/
def pyIsSpace (c : Char) : Bool :=
  c == ' ' || c == '\t' || c == '\n' || c == '\r' || c == '\x0b' || c == '\x0c'

/-- Python `str.strip()`. -/
def pyStrip (s : String) : String :=
  String.mk (((s.data.dropWhile pyIsSpace).reverse.dropWhile pyIsSpace).reverse)

/-- Python `str.lstrip("./")`: drop every leading `.` or `/`. -/
def pyLstripDotSlash (s : String) : String :=
  String.mk (s.data.dropWhile (fun c => c == '.' || c == '/'))

/-- Python `str.replace("\\", "/")` (single-character replacement). -/
def pyReplaceBackslash (s : String) : String :=
  String.mk (s.data.map (fun c => if c == '\\' then '/' else c))

/-- Python truthiness of an optional string (`None` and `""` are falsy). -/
def pyTruthy : Option String → Bool
  | some s => s ≠ ""
  | none => false

/-- Python `a or b` for an optional string `a` with a string default. -/
def pyOrS (a : Option String) (b : String) : String :=
  match a with
  | some s => if s = "" then b else s
  | none => b

/-- Python `a or b` on optional strings. -/
def pyOrO (a b : Option String) : Option String :=
  if pyTruthy a then a else b

/-- Python `a or b` on strings (`""` is falsy). -/
def pyOrStr (a b : String) : String :=
  if a = "" then b else a

/-! ## `fnmatch.fnmatchcase` (glob matching)

`ScopeGuard._matches` (scope_guard.py:143-146) calls
`fnmatch.fnmatchcase`.  The pattern language: `*` matches any (possibly
empty) run of characters, `?` matches one character, `[...]` is a
character class with ranges and `!`-negation where a `]` directly after
the opening (or after `!`) is a class member, and an unterminated `[` is
a literal. -/

/-- Scan a character-class body up to the closing `]`; returns the class
content and the remainder of the pattern. -/
def scanClose : List Char → Option (List Char × List Char)
  | [] => none
  | c :: rest =>
    if c = ']' then some ([], rest)
    else
      match scanClose rest with
      | none => none
      | some (content, after) => some (c :: content, after)

theorem scanClose_length :
    ∀ (l content after : List Char), scanClose l = some (content, after) →
      after.length < l.length := by
  intro l
  induction l with
  | nil => intro content after h; simp [scanClose] at h
  | cons c rest ih =>
    intro content after h
    rw [scanClose] at h
    split at h
    · simp only [Option.some.injEq, Prod.mk.injEq] at h
      rw [← h.2]
      simp only [List.length_cons]
      omega
    · split at h
      · simp at h
      · rename_i content2 after2 hrec
        simp only [Option.some.injEq, Prod.mk.injEq] at h
        have := ih content2 after2 hrec
        rw [← h.2]
        simp only [List.length_cons]
        omega

/-- A leading `!` right after `[` marks class negation
(`fnmatch.translate`). -/
def dropBang : List Char → Bool × List Char
  | '!' :: rest => (true, rest)
  | l => (false, l)

theorem dropBang_snd_length (l : List Char) : (dropBang l).2.length ≤ l.length := by
  unfold dropBang
  split
  · simp only [List.length_cons]
    omega
  · exact Nat.le_refl _

/-- A `]` directly after `[` (or after `[!`) belongs to the class body
(`fnmatch.translate`). -/
def dropBracketLead : List Char → List Char × List Char
  | ']' :: rest => ([']'], rest)
  | l => ([], l)

theorem dropBracketLead_snd_length (l : List Char) :
    (dropBracketLead l).2.length ≤ l.length := by
  unfold dropBracketLead
  split
  · simp only [List.length_cons]
    omega
  · exact Nat.le_refl _

/-- Split a pattern right after `[` into (negated?, class content, rest),
following CPython's bracket scanning in `fnmatch.translate`; `none` means
the class is unterminated and `[` is a literal. -/
def splitBracket (l : List Char) : Option (Bool × List Char × List Char) :=
  match scanClose (dropBracketLead (dropBang l).2).2 with
  | none => none
  | some (content, after) =>
    some ((dropBang l).1, (dropBracketLead (dropBang l).2).1 ++ content, after)

theorem splitBracket_length (l : List Char) (neg : Bool) (content after : List Char)
    (h : splitBracket l = some (neg, content, after)) : after.length < l.length := by
  unfold splitBracket at h
  revert h
  match hs : scanClose (dropBracketLead (dropBang l).2).2 with
  | none => intro h; simp at h
  | some (c2, a2) =>
    intro h
    simp only [Option.some.injEq, Prod.mk.injEq] at h
    have h1 := scanClose_length _ _ _ hs
    have h2 := dropBracketLead_snd_length (dropBang l).2
    have h3 := dropBang_snd_length l
    rw [← h.2.2]
    omega

/-- Membership of a character in a class body, with `a-b` ranges (a dash
that is the last character of the body is a literal). -/
def classHas (c : Char) : List Char → Bool
  | a :: '-' :: b :: rest => (decide (a ≤ c) && decide (c ≤ b)) || classHas c rest
  | a :: rest => a == c || classHas c rest
  | [] => false

/-- Glob matching of a whole string against a whole pattern, the
semantics of `fnmatch.fnmatchcase` (no case folding, no path
normalization; `*`/`?` also match `/` and newline). -/
def globMatch : List Char → List Char → Bool
  | [], [] => true
  | [], _ :: _ => false
  | '*' :: ps, s =>
    globMatch ps s ||
      (match s with
       | [] => false
       | _ :: s2 => globMatch ('*' :: ps) s2)
  | '?' :: ps, s =>
    (match s with
     | [] => false
     | _ :: s2 => globMatch ps s2)
  | '[' :: ps, s =>
    (match hsb : splitBracket ps with
     | none =>
       (match s with
        | '[' :: s2 => globMatch ps s2
        | _ => false)
     | some (neg, content, rest) =>
       (match s with
        | [] => false
        | c :: s2 => (classHas c content != neg) && globMatch rest s2))
  | c :: ps, s =>
    (match s with
     | [] => false
     | c2 :: s2 => c == c2 && globMatch ps s2)
termination_by p s => p.length + s.length
decreasing_by
  all_goals simp_wf
  all_goals try omega
  · have := splitBracket_length _ _ _ _ hsb
    omega

/-- `fnmatch.fnmatchcase(name, pattern)`. -/
def fnmatchcase (name pattern : String) : Bool :=
  globMatch pattern.data name.data

/-! ## Scope Guard path classification (`scope_guard.py:104-170`) -/

/-- `ScopeGuard._normalize_patterns` (scope_guard.py:126-135): skip
`None`, strip whitespace, strip leading `.`/`/`, drop empties, turn
backslashes into slashes. -/
def sgNormalizeOnePattern (p : Option String) : Option String :=
  match p with
  | none => none
  | some raw =>
    let cleaned := pyLstripDotSlash (pyStrip raw)
    if cleaned = "" then none else some (pyReplaceBackslash cleaned)

def sgNormalizePatterns (patterns : List (Option String)) : List String :=
  patterns.filterMap sgNormalizeOnePattern

/-- `ScopeGuard._normalize_path` (scope_guard.py:137-141). -/
def dropDotSlashLoop : List Char → List Char
  | '.' :: '/' :: rest => dropDotSlashLoop rest
  | l => l

def sgNormalizePath (relative : String) : String :=
  String.mk (dropDotSlashLoop (pyReplaceBackslash relative).data)

/-- Scope manifest as read from `CODEX_SCOPE_MANIFEST`: three glob lists
(entries may be JSON `null`). -/
structure ScopeManifest where
  allow : List (Option String)
  deny : List (Option String)
  logOnly : List (Option String)
deriving DecidableEq

/-- One line of the violation log (scope_guard.py:183-197). -/
structure VioEntry where
  timestamp : String
  promptId : String
  projectId : String
  path : String
  command : String
deriving DecidableEq

/-- The status-file payload written on a violation
(scope_guard.py:235-242). -/
structure ViolationPayload where
  timestamp : String
  promptId : String
  projectId : String
  paths : List String
  message : String
  command : String
deriving DecidableEq

/-- In-memory state of `ScopeGuard` (scope_guard.py:104-124): the
normalized pattern lists plus the sticky violation record. -/
structure ScopeGuardS where
  allowPatterns : List String
  denyPatterns : List String
  logOnlyPatterns : List String
  promptId : String
  projectId : String
  violationInfo : Option ViolationPayload
deriving DecidableEq

/-- `ScopeGuard.__init__` on a manifest (scope_guard.py:104-124). -/
def mkScopeGuard (manifest : ScopeManifest) (promptId projectId : String) : ScopeGuardS :=
  { allowPatterns := sgNormalizePatterns manifest.allow
    denyPatterns := sgNormalizePatterns manifest.deny
    logOnlyPatterns := sgNormalizePatterns manifest.logOnly
    promptId := promptId
    projectId := projectId
    violationInfo := none }

/-- `ScopeGuard._matches` (scope_guard.py:143-146). -/
def sgMatches (relative : String) (patterns : List String) : Bool :=
  patterns.any (fun pattern => fnmatchcase relative pattern)

/-- `ScopeGuard.classify_path` (scope_guard.py:148-163). -/
def classifyPath (g : ScopeGuardS) (relative : String) : String :=
  let rel := sgNormalizePath relative
  if rel = "" then "deny"
  else if sgMatches rel g.denyPatterns then "deny"
  else
    let allowed := if g.allowPatterns.isEmpty then true else sgMatches rel g.allowPatterns
    if !allowed then "deny"
    else if sgMatches rel g.logOnlyPatterns then "log_only"
    else "allow"

/-- `ScopeGuard.find_violations` (scope_guard.py:165-170). -/
def findViolations (g : ScopeGuardS) (paths : List String) : List String :=
  paths.filter (fun p => classifyPath g p == "deny")

/-- Modelled from the spec (§3.3): the classification rule exactly as the
specification words it — deny matches win, then a non-empty allow list
must match, then log-only, then allow.  Used only to compare against
`classifyPath`. -/
def specClassifyPath (deny allow logOnly : List String) (p : String) : String :=
  if sgMatches p deny then "deny"
  else if !allow.isEmpty && !sgMatches p allow then "deny"
  else if sgMatches p logOnly then "log_only"
  else "allow"

/-- C1 (amended): for every manifest and every repo-relative path whose
normalized form is non-empty, `classify_path` decides exactly by the
spec's four rules, applied to the normalized patterns and the normalized
path; moreover a deny-pattern match forces `"deny"` for every path,
normalized-empty or not. -/
theorem classifyPath_follows_spec_rules (g : ScopeGuardS) (p : String) :
    (sgNormalizePath p ≠ "" →
      classifyPath g p =
        specClassifyPath g.denyPatterns g.allowPatterns g.logOnlyPatterns
          (sgNormalizePath p)) ∧
    (sgMatches (sgNormalizePath p) g.denyPatterns = true → classifyPath g p = "deny") := by
  constructor
  · intro hne
    unfold classifyPath specClassifyPath
    by_cases hd : sgMatches (sgNormalizePath p) g.denyPatterns
    · simp [hne, hd]
    · by_cases ha : g.allowPatterns.isEmpty
      · simp [hne, hd, ha]
      · by_cases hm : sgMatches (sgNormalizePath p) g.allowPatterns
        · simp [hne, hd, ha, hm]
        · simp [hne, hd, ha, hm]
  · intro hd
    unfold classifyPath
    by_cases hne : sgNormalizePath p = ""
    · simp [hne]
    · simp [hne, hd]

/-- Witness for `classifyPath_follows_spec_rules` at a concrete guard and
path. -/
theorem classifyPath_follows_spec_rules_witness :
    sgNormalizePath "projects/foo/a.txt" ≠ "" ∧
    ((sgNormalizePath "projects/foo/a.txt" ≠ "" →
      classifyPath (mkScopeGuard ⟨[some "projects/foo/**"], [some "secrets/*"], []⟩ "p" "j")
          "projects/foo/a.txt" =
        specClassifyPath
          (mkScopeGuard ⟨[some "projects/foo/**"], [some "secrets/*"], []⟩ "p" "j").denyPatterns
          (mkScopeGuard ⟨[some "projects/foo/**"], [some "secrets/*"], []⟩ "p" "j").allowPatterns
          (mkScopeGuard ⟨[some "projects/foo/**"], [some "secrets/*"], []⟩ "p" "j").logOnlyPatterns
          (sgNormalizePath "projects/foo/a.txt")) ∧
     (sgMatches (sgNormalizePath "projects/foo/a.txt")
          (mkScopeGuard ⟨[some "projects/foo/**"], [some "secrets/*"], []⟩ "p" "j").denyPatterns = true →
        classifyPath (mkScopeGuard ⟨[some "projects/foo/**"], [some "secrets/*"], []⟩ "p" "j")
          "projects/foo/a.txt" = "deny")) :=
  ⟨by decide,
   classifyPath_follows_spec_rules
     (mkScopeGuard ⟨[some "projects/foo/**"], [some "secrets/*"], []⟩ "p" "j")
     "projects/foo/a.txt"⟩

/-- C1 counterexample: the claim quantifies over every repo-relative
path, but `classify_path` denies the path whose normalized form is empty
even when the manifest is entirely empty (empty allow list, no deny
match), where the spec's rules say allow. -/
theorem classifyPath_empty_path_cex :
    classifyPath (mkScopeGuard ⟨[], [], []⟩ "p" "j") "" = "deny" ∧
    specClassifyPath [] [] [] (sgNormalizePath "") = "allow" ∧
    ("deny" : String) ≠ "allow" := by
  refine ⟨by decide, by decide, by decide⟩

/-! ## Dirty-file tracker (`scope_guard.py:46-101`) -/

/-- Result of `DirtyFileTracker._file_state`: `(exists, mtime_ns, size)`
(scope_guard.py:70-76); a missing file is `(False, 0, 0)`. -/
structure FileState where
  present : Bool
  mtimeNs : Int
  size : Int
deriving DecidableEq

/-- The git/filesystem facts a single `_snapshot` call observes: the
three `git ls-files` listings and the `stat` outcome per path
(scope_guard.py:78-89). -/
structure TrackerFs where
  tracked : List String
  untracked : List String
  deleted : List String
  fileState : String → FileState

/-- Python `dict` lookup on an insertion-ordered association list. -/
def dictGet (k : String) : List (String × α) → Option α
  | [] => none
  | (a, b) :: rest => if k = a then some b else dictGet k rest

/-- Python `dict` assignment on an insertion-ordered association list. -/
def dictSet (k : String) (v : α) : List (String × α) → List (String × α)
  | [] => [(k, v)]
  | (k2, v2) :: rest => if k = k2 then (k, v) :: rest else (k2, v2) :: dictSet k v rest

/-- Python `dict.setdefault`. -/
def dictSetdefault (k : String) (v : α) (l : List (String × α)) : List (String × α) :=
  if (dictGet k l).isSome then l else l ++ [(k, v)]

/-- `DirtyFileTracker._snapshot` (scope_guard.py:78-89). -/
def snapshot (fs : TrackerFs) : List (String × FileState) :=
  let s1 := fs.tracked.foldl (fun acc p => dictSet p (fs.fileState p) acc) []
  let s2 := fs.untracked.foldl (fun acc p => dictSetdefault p (fs.fileState p) acc) s1
  fs.deleted.foldl (fun acc p => dictSet p ⟨false, 0, 0⟩ acc) s2

/-- Stable ascending insertion used to model Python `sorted` on strings. -/
def insertStrAsc (x : String) : List String → List String
  | [] => [x]
  | y :: ys => if x ≤ y then x :: y :: ys else y :: insertStrAsc x ys

/-- Python `sorted` on a list of strings. -/
def pySortStrings : List String → List String
  | [] => []
  | x :: xs => insertStrAsc x (pySortStrings xs)

/-- `DirtyFileTracker.scan` (scope_guard.py:91-97): diff the stored
baseline against a fresh snapshot, adopt the snapshot as the new
baseline, and return the sorted changed paths. -/
def trackerScan (st : List (String × FileState)) (fs : TrackerFs) :
    List String × List (String × FileState) :=
  let newState := snapshot fs
  let changedPaths := (st.map Prod.fst ++ newState.map Prod.fst).dedup
  let touched := pySortStrings
    (changedPaths.filter (fun p => dictGet p st != dictGet p newState))
  (touched, newState)

/-- `DirtyFileTracker.refresh` (scope_guard.py:99-101). -/
def trackerRefresh (fs : TrackerFs) : List (String × FileState) :=
  snapshot fs

/-- C10 (confirmed): `scan` adopts its snapshot as the new baseline — a
second `scan` against an unchanged filesystem/git state returns the empty
list, whatever the first call returned. -/
theorem trackerScan_twice_empty (st : List (String × FileState)) (fs : TrackerFs) :
    (trackerScan (trackerScan st fs).2 fs).1 = [] := by
  simp [trackerScan, pySortStrings]

/-! ## Prompt Store (`backend/server.py:626-1065`)

The store keeps Python-string statuses (the dataclass field is `str`),
an insertion-ordered record dict, the pending FIFO, the list of stale
`running` ids found at load, and the recovered-id list.  The in-memory
status counters (`_status_counts`) and the duration-statistics window are
bookkeeping no claim mentions and are not carried here.  `uuid4` and
`utcnow_iso` are external inputs, so operations take the generated id
and timestamp as parameters. -/

def TERMINAL_PROMPT_STATUSES : List String := ["completed", "failed", "canceled"]

/-- `PromptRecord` (server.py:626-641).  The three `*_seconds` fields are
floats in the source; their values never steer any control flow the
claims touch, so they are abstracted as `Option Int`. -/
structure PromptRecord where
  promptId : String
  text : String
  status : String
  createdAt : String
  updatedAt : String
  enqueuedAt : String
  logPath : String
  resultSummary : Option String := none
  attempts : Nat := 0
  projectId : Option String := none
  startedAt : Option String := none
  currentWaitSeconds : Option Int := none
  lastWaitSeconds : Option Int := none
  lastRunSeconds : Option Int := none
  lastFinishedAt : Option String := none
deriving DecidableEq

/-- In-memory `PromptStore` state (server.py:644-663). -/
structure PromptStoreS where
  dbPath : String
  records : List (String × PromptRecord)
  pending : List String
  staleRunning : List String
  recoveredPromptIds : List String
deriving DecidableEq

def initStore (dbPath : String) : PromptStoreS :=
  { dbPath := dbPath, records := [], pending := [], staleRunning := [], recoveredPromptIds := [] }

/-- `LOG_DIR / f"prompt_{prompt_id}.log"` (server.py:815). -/
def promptLogPath (promptId : String) : String :=
  "logs/prompt_" ++ promptId ++ ".log"

/-- Exceptions raised by store operations. -/
inductive StoreErr where
  | keyError (msg : String)
  | valueError (msg : String)
  | osError (msg : String)
deriving DecidableEq

/-- `PromptStore.add_prompt` (server.py:813-833), with the fresh uuid and
clock reading as inputs.  There is no project registry in this model, so
`_normalize_project_id` is the identity (server.py:942-945 with
`project_registry = None`). -/
def addPrompt (s : PromptStoreS) (promptId text : String) (projectId : Option String)
    (now : String) : PromptStoreS :=
  let record : PromptRecord :=
    { promptId := promptId, text := text, status := "queued", createdAt := now,
      updatedAt := now, enqueuedAt := now, logPath := promptLogPath promptId,
      projectId := projectId }
  { s with records := dictSet promptId record s.records, pending := s.pending ++ [promptId] }

/-- The record-level body of `PromptStore._update` (server.py:1027-1058):
status-transition bookkeeping, then the non-status updates (here only
`result_summary`), then the terminal `last_finished_at` default and
`updated_at`. -/
def updateRecord (sb : Option String → Option String → Option Int)
    (r : PromptRecord) (now : String) (newStatus : Option String)
    (newSummary : Option (Option String)) : PromptRecord :=
  let r1 :=
    match newStatus with
    | none => r
    | some ns =>
      let rc := { r with status := ns }
      if ns = "queued" then
        { rc with enqueuedAt := now, startedAt := none, currentWaitSeconds := none }
      else if ns = "running" then
        { rc with startedAt := now, currentWaitSeconds := none }
      else if r.status = "running" then
        { rc with lastWaitSeconds := r.currentWaitSeconds,
                  lastRunSeconds := sb r.startedAt (some now),
                  lastFinishedAt := some now, startedAt := none,
                  currentWaitSeconds := none }
      else rc
  let r2 :=
    match newSummary with
    | none => r1
    | some v => { r1 with resultSummary := v }
  let r3 :=
    match newStatus with
    | some ns =>
      if ns ∈ TERMINAL_PROMPT_STATUSES then
        { r2 with lastFinishedAt := pyOrO r2.lastFinishedAt (some now) }
      else r2
    | none => r2
  { r3 with updatedAt := now }

/-- `PromptStore._update` (server.py:1027-1058): `KeyError` on an unknown
id, otherwise rewrite the record in place. -/
def updatePromptE (sb : Option String → Option String → Option Int)
    (s : PromptStoreS) (promptId : String) (timestamp : Option String) (now : String)
    (newStatus : Option String) (newSummary : Option (Option String)) :
    Except StoreErr PromptStoreS :=
  match dictGet promptId s.records with
  | none => .error (.keyError promptId)
  | some r =>
    let ts := timestamp.getD now
    .ok { s with records := dictSet promptId (updateRecord sb r ts newStatus newSummary) s.records }

/-- `PromptStore.mark_completed` (server.py:948-949). -/
def markCompletedE (sb : Option String → Option String → Option Int)
    (s : PromptStoreS) (promptId summary now : String) : Except StoreErr PromptStoreS :=
  updatePromptE sb s promptId none now (some "completed") (some (some summary))

/-- `PromptStore.mark_failed` (server.py:951-952). -/
def markFailedE (sb : Option String → Option String → Option Int)
    (s : PromptStoreS) (promptId summary now : String) : Except StoreErr PromptStoreS :=
  updatePromptE sb s promptId none now (some "failed") (some (some summary))

/-- `PromptStore.mark_canceled` (server.py:954-955). -/
def markCanceledE (sb : Option String → Option String → Option Int)
    (s : PromptStoreS) (promptId summary now : String) : Except StoreErr PromptStoreS :=
  updatePromptE sb s promptId none now (some "canceled") (some (some summary))

/-- The record as rewritten by `begin_attempt` (server.py:931-938). -/
def beginAttemptRecord (sb : Option String → Option String → Option Int)
    (r : PromptRecord) (now : String) : PromptRecord :=
  { r with attempts := r.attempts + 1, status := "running",
           startedAt := some now,
           currentWaitSeconds := sb (some r.enqueuedAt) (some now),
           updatedAt := now }

/-- `PromptStore.begin_attempt` (server.py:929-940). -/
def beginAttemptE (sb : Option String → Option String → Option Int)
    (s : PromptStoreS) (promptId now : String) :
    Except StoreErr (PromptStoreS × PromptRecord) :=
  match dictGet promptId s.records with
  | none => .error (.keyError promptId)
  | some r =>
    .ok ({ s with records := dictSet promptId (beginAttemptRecord sb r now) s.records },
      beginAttemptRecord sb r now)

/-- `PromptStore.retry_prompt` (server.py:957-972): refuse a running
prompt, reset the queue timestamps and push the id onto the FIFO (even
when the record is already queued). -/
def retryPromptE (s : PromptStoreS) (promptId now : String) : Except StoreErr PromptStoreS :=
  match dictGet promptId s.records with
  | none => .error (.keyError promptId)
  | some r =>
    if r.status = "running" then .error (.valueError "prompt still running")
    else
      let r2 := { r with status := "queued", enqueuedAt := now, startedAt := none,
                         currentWaitSeconds := none, updatedAt := now }
      .ok { s with records := dictSet promptId r2 s.records,
                   pending := s.pending ++ [promptId] }

/-- `PromptStore.edit_prompt` (server.py:989-1002). -/
def editPromptE (s : PromptStoreS) (promptId newText now : String) :
    Except StoreErr PromptStoreS :=
  let normalized := pyStrip newText
  if normalized = "" then .error (.valueError "prompt text is required")
  else
    match dictGet promptId s.records with
    | none => .error (.keyError promptId)
    | some r =>
      if r.status ≠ "queued" then .error (.valueError "prompt can only be edited while queued")
      else .ok { s with records := dictSet promptId { r with text := normalized, updatedAt := now } s.records }

/-- Python `dict.pop(key)` by key. -/
def dictRemove (k : String) (l : List (String × α)) : List (String × α) :=
  l.filter (fun kv => kv.1 ≠ k)

/-- `PromptStore.delete_prompt` (server.py:1010-1025): only queued
records may go; the pending FIFO is *not* purged. -/
def deletePromptE (s : PromptStoreS) (promptId : String) :
    Except StoreErr (PromptStoreS × PromptRecord) :=
  match dictGet promptId s.records with
  | none => .error (.keyError promptId)
  | some r =>
    if r.status ≠ "queued" then .error (.valueError "prompt can only be deleted while queued")
    else .ok ({ s with records := dictRemove promptId s.records }, r)

/-- `PromptStore.next_prompt_id` (server.py:1060-1064): pop the FIFO head
or time out with `None`. -/
def nextPromptId (s : PromptStoreS) : Option String × PromptStoreS :=
  match s.pending with
  | [] => (none, s)
  | promptId :: rest => (some promptId, { s with pending := rest })

/-- `PromptStore.consume_recovered_prompts` (server.py:1004-1008). -/
def consumeRecoveredPrompts (s : PromptStoreS) : List String × PromptStoreS :=
  (s.recoveredPromptIds, { s with recoveredPromptIds := [] })

/-! ### Mutating operations, persistence, traces (C2)

`_persist` (server.py:706-709) serializes the full record dict and calls
`Path.write_text` on the database path directly — the trace below records
the filesystem operations a store call performs.  The `records` payload
of `writeJson` stands for the serialized JSON text of exactly those
records. -/

inductive FsOp where
  | writeJson (path : String) (records : List (String × PromptRecord))
  | renameFile (src dst : String)
  | unlinkFile (path : String)
deriving DecidableEq

def FsOp.isRename : FsOp → Bool
  | .renameFile _ _ => true
  | _ => false

/-- The filesystem trace of one `_persist` call (server.py:706-709). -/
def persistOps (s : PromptStoreS) : List FsOp :=
  [.writeJson s.dbPath s.records]

/-- Modelled from the spec ("write-to-temp, rename"): what an atomic
persist would perform.  Used only for comparison. -/
def specAtomicPersistOps (s : PromptStoreS) : List FsOp :=
  [.writeJson (s.dbPath ++ ".tmp") s.records,
   .renameFile (s.dbPath ++ ".tmp") s.dbPath]

/-- The mutating store operations the claims enumerate, plus the
non-persisting `take_next`. -/
inductive StoreOp where
  | submit (promptId text : String) (projectId : Option String) (now : String)
  | takeNext
  | beginAttempt (promptId now : String)
  | complete (promptId summary now : String)
  | markFail (promptId summary now : String)
  | cancelOp (promptId summary now : String)
  | retry (promptId now : String)
  | edit (promptId text now : String)
  | delete (promptId : String)
deriving DecidableEq

def StoreOp.isMutating : StoreOp → Bool
  | .takeNext => false
  | _ => true

/-- The in-memory effect of one store operation; a raised guard leaves
the error to the caller with no mutation done, exactly as each method
checks before it mutates. -/
def opApplyE (sb : Option String → Option String → Option Int)
    (op : StoreOp) (s : PromptStoreS) : Except StoreErr PromptStoreS :=
  match op with
  | .submit promptId text projectId now => .ok (addPrompt s promptId text projectId now)
  | .takeNext => .ok (nextPromptId s).2
  | .beginAttempt promptId now => (beginAttemptE sb s promptId now).map Prod.fst
  | .complete promptId summary now => markCompletedE sb s promptId summary now
  | .markFail promptId summary now => markFailedE sb s promptId summary now
  | .cancelOp promptId summary now => markCanceledE sb s promptId summary now
  | .retry promptId now => retryPromptE s promptId now
  | .edit promptId text now => editPromptE s promptId text now
  | .delete promptId => (deletePromptE s promptId).map Prod.fst

/-- Outcome of a store call including its persistence step. -/
structure OpOutcome where
  err : Option StoreErr
  state : PromptStoreS
  fs : List FsOp
deriving DecidableEq

/-- One full mutating call: mutate in memory, then `_persist()` (and for
`delete_prompt` unlink the log afterwards).  When persistence raises, the
exception propagates and the in-memory mutation stays — there is no
rollback anywhere in `PromptStore`. -/
def opApplyFull (sb : Option String → Option String → Option Int)
    (op : StoreOp) (s : PromptStoreS) (persistOk : Bool) : OpOutcome :=
  match opApplyE sb op s with
  | .error e => ⟨some e, s, []⟩
  | .ok s2 =>
    if op.isMutating then
      if persistOk then
        let extra :=
          match op with
          | .delete promptId =>
            match dictGet promptId s.records with
            | some r => [FsOp.unlinkFile r.logPath]
            | none => []
          | _ => []
        ⟨none, s2, persistOps s2 ++ extra⟩
      else ⟨some (.osError "persist failed"), s2, persistOps s2⟩
    else ⟨none, s2, []⟩

/-- Total step used for reachability: a raising operation leaves the
state unchanged (the HTTP layer catches the exception). -/
def opStep (sb : Option String → Option String → Option Int)
    (s : PromptStoreS) (op : StoreOp) : PromptStoreS :=
  match opApplyE sb op s with
  | .ok s2 => s2
  | .error _ => s

def execOps (sb : Option String → Option String → Option Int)
    (ops : List StoreOp) (s : PromptStoreS) : PromptStoreS :=
  ops.foldl (opStep sb) s

/-- `seconds_between` abstracted to "always unparseable"; used only to
instantiate theorems at concrete inputs — no claim depends on duration
values. -/
def sbNone : Option String → Option String → Option Int := fun _ _ => none

/-! ### `list_prompts` ordering (C9)

`PromptStore.list_prompts` (server.py:835-851) runs
`sorted(self._records.values(), key=lambda r: r.created_at, reverse=True)`.
Python compares the string keys by code point, and `sorted` is stable,
so ties on `created_at` keep the dict's insertion order.  A stable
descending sort is modelled by insertion sort with the "may come first"
test `¬ (x.created_at < y.created_at)`. -/

/-- Python `<` on strings (lexicographic by code point). -/
def charListLt : List Char → List Char → Bool
  | _, [] => false
  | [], _ :: _ => true
  | a :: as, b :: bs => if a < b then true else if b < a then false else charListLt as bs

def pyStrLt (a b : String) : Bool := charListLt a.data b.data

theorem charListLt_irrefl : ∀ a : List Char, charListLt a a = false
  | [] => rfl
  | c :: rest => by
    rw [charListLt]
    simp [lt_irrefl, charListLt_irrefl rest]

theorem charListLt_asymm : ∀ a b : List Char,
    charListLt a b = true → charListLt b a = false := by
  intro a
  induction a with
  | nil =>
    intro b h
    cases b with
    | nil => simp [charListLt] at h
    | cons y ys => rfl
  | cons x xs ih =>
    intro b h
    cases b with
    | nil => simp [charListLt] at h
    | cons y ys =>
      rw [charListLt] at h ⊢
      by_cases hxy : x < y
      · have hyx : ¬ y < x := lt_asymm hxy
        simp [hxy, hyx]
      · by_cases hyx : y < x
        · simp [hxy, hyx] at h
        · simp only [hxy, hyx, if_false] at h ⊢
          exact ih ys h

theorem charListLt_le_trans : ∀ a b c : List Char,
    charListLt a b = false → charListLt b c = false → charListLt a c = false := by
  intro a
  induction a with
  | nil =>
    intro b c hab hbc
    cases b with
    | nil =>
      cases c with
      | nil => rfl
      | cons z zs => simp [charListLt] at hbc
    | cons y ys => simp [charListLt] at hab
  | cons x xs ih =>
    intro b c hab hbc
    cases c with
    | nil => rfl
    | cons z zs =>
      cases b with
      | nil => simp [charListLt] at hbc
      | cons y ys =>
        rw [charListLt] at hab hbc ⊢
        by_cases hxy : x < y
        · simp [hxy] at hab
        · by_cases hyz : y < z
          · simp [hxy, hyz] at hbc
          · have hxz : ¬ x < z := fun hxz =>
              absurd (lt_of_lt_of_le hxz (le_trans (not_lt.mp hyz) (not_lt.mp hxy)))
                (lt_irrefl x)
            by_cases hzx : z < x
            · simp [hxz, hzx]
            · by_cases hyx : y < x
              · exact absurd (lt_of_le_of_lt (not_lt.mp hyz) hyx) hzx
              · by_cases hzy : z < y
                · exact absurd (lt_of_lt_of_le hzy (not_lt.mp hxy)) hzx
                · simp only [hxy, hyx, if_false] at hab
                  simp only [hyz, hzy, if_false] at hbc
                  simp only [hxz, hzx, if_false]
                  exact ih ys zs hab hbc

/-- `x` may be placed before `y` in the stable descending sort. -/
def pyKeyGe (x y : PromptRecord) : Bool :=
  !(pyStrLt x.createdAt y.createdAt)

def insertByCreatedDesc (x : PromptRecord) : List PromptRecord → List PromptRecord
  | [] => [x]
  | y :: ys => if pyKeyGe x y then x :: y :: ys else y :: insertByCreatedDesc x ys

/-- Python `sorted(values, key=created_at, reverse=True)` (stable). -/
def pySortByCreatedDesc : List PromptRecord → List PromptRecord
  | [] => []
  | x :: xs => insertByCreatedDesc x (pySortByCreatedDesc xs)

/-- `PromptStore.list_prompts` (server.py:835-851), restricted to the
record ordering (the per-item payload decoration is presentation). -/
def listPrompts (s : PromptStoreS) : List PromptRecord :=
  pySortByCreatedDesc (s.records.map Prod.snd)

/-- The ordering the claim asserts: `created_at` descending with ties in
lexicographic id order. -/
def specOrderedDesc : List PromptRecord → Bool
  | [] => true
  | [_] => true
  | a :: b :: rest =>
    (pyStrLt b.createdAt a.createdAt ||
      (a.createdAt == b.createdAt && pyStrLt a.promptId b.promptId)) &&
    specOrderedDesc (b :: rest)

theorem insertByCreatedDesc_perm (x : PromptRecord) (l : List PromptRecord) :
    List.Perm (insertByCreatedDesc x l) (x :: l) := by
  induction l with
  | nil => simp [insertByCreatedDesc]
  | cons y ys ih =>
    rw [insertByCreatedDesc]
    split
    · exact List.Perm.refl _
    · exact ((ih.cons y).trans (List.Perm.swap x y ys))

theorem pySortByCreatedDesc_perm (l : List PromptRecord) :
    List.Perm (pySortByCreatedDesc l) l := by
  induction l with
  | nil => simp [pySortByCreatedDesc]
  | cons x xs ih =>
    rw [pySortByCreatedDesc]
    exact (insertByCreatedDesc_perm x (pySortByCreatedDesc xs)).trans (ih.cons x)

theorem pyKeyGe_total (x y : PromptRecord) (h : pyKeyGe x y = false) :
    pyKeyGe y x = true := by
  simp only [pyKeyGe, Bool.not_eq_false'] at h
  simp only [pyKeyGe, Bool.not_eq_true']
  exact charListLt_asymm _ _ h

theorem pyKeyGe_trans (x y z : PromptRecord) (h1 : pyKeyGe x y = true)
    (h2 : pyKeyGe y z = true) : pyKeyGe x z = true := by
  simp only [pyKeyGe, Bool.not_eq_true'] at h1 h2 ⊢
  exact charListLt_le_trans _ _ _ h1 h2

theorem insertByCreatedDesc_pairwise (x : PromptRecord) (l : List PromptRecord)
    (h : l.Pairwise (fun a b => pyKeyGe a b = true)) :
    (insertByCreatedDesc x l).Pairwise (fun a b => pyKeyGe a b = true) := by
  induction l with
  | nil => simp [insertByCreatedDesc]
  | cons y ys ih =>
    rw [insertByCreatedDesc]
    rcases List.pairwise_cons.mp h with ⟨hy, hys⟩
    split
    · rename_i hxy
      refine List.pairwise_cons.mpr ⟨?_, h⟩
      intro z hz
      rcases List.mem_cons.mp hz with rfl | hz2
      · exact hxy
      · exact pyKeyGe_trans x y z hxy (hy _ hz2)
    · rename_i hxy
      have hxyF : pyKeyGe x y = false := by
        simpa using hxy
      have hyx := pyKeyGe_total x y hxyF
      refine List.pairwise_cons.mpr ⟨?_, ih hys⟩
      intro z hz
      have hz3 := (insertByCreatedDesc_perm x ys).mem_iff.mp hz
      rcases List.mem_cons.mp hz3 with rfl | hz4
      · exact hyx
      · exact hy _ hz4

theorem pySortByCreatedDesc_pairwise (l : List PromptRecord) :
    (pySortByCreatedDesc l).Pairwise (fun a b => pyKeyGe a b = true) := by
  induction l with
  | nil => simp [pySortByCreatedDesc]
  | cons x xs ih =>
    rw [pySortByCreatedDesc]
    exact insertByCreatedDesc_pairwise x _ ih

theorem insertByCreatedDesc_filter (x : PromptRecord) (l : List PromptRecord) (k : String) :
    (insertByCreatedDesc x l).filter (fun r => r.createdAt == k) =
      if x.createdAt = k then x :: l.filter (fun r => r.createdAt == k)
      else l.filter (fun r => r.createdAt == k) := by
  induction l with
  | nil =>
    rw [insertByCreatedDesc]
    by_cases hk : x.createdAt = k
    · simp [List.filter_cons, hk]
    · simp [List.filter_cons, hk]
  | cons y ys ih =>
    rw [insertByCreatedDesc]
    split
    · by_cases hk : x.createdAt = k
      · simp [List.filter_cons, hk]
      · simp [List.filter_cons, hk]
    · rename_i hxy
      have hxyF : pyStrLt x.createdAt y.createdAt = true := by
        have : pyKeyGe x y = false := by simpa using hxy
        simpa [pyKeyGe] using this
      by_cases hyk : y.createdAt = k
      · have hxk : x.createdAt ≠ k := by
          intro hxk
          rw [hxk, hyk] at hxyF
          rw [pyStrLt, charListLt_irrefl] at hxyF
          exact Bool.false_ne_true hxyF
        simp [List.filter_cons, hyk, hxk, ih]
      · by_cases hxk : x.createdAt = k
        · simp [List.filter_cons, hyk, hxk, ih]
        · simp [List.filter_cons, hyk, hxk, ih]

theorem pySortByCreatedDesc_filter (l : List PromptRecord) (k : String) :
    (pySortByCreatedDesc l).filter (fun r => r.createdAt == k) =
      l.filter (fun r => r.createdAt == k) := by
  induction l with
  | nil => simp [pySortByCreatedDesc]
  | cons x xs ih =>
    rw [pySortByCreatedDesc, insertByCreatedDesc_filter]
    by_cases hk : x.createdAt = k
    · simp [List.filter_cons, hk, ih]
    · simp [List.filter_cons, hk, ih]

/-- C9 (amended): `list()` returns a permutation of the records that is
sorted by `created_at` descending; records with equal `created_at` keep
the record map's insertion order — not id order — stated as: filtering
the output by any fixed `created_at` value returns exactly the filtered
insertion-ordered input. -/
theorem listPrompts_sorted_stable (s : PromptStoreS) :
    List.Perm (listPrompts s) (s.records.map Prod.snd) ∧
    (listPrompts s).Pairwise
      (fun a b => pyStrLt a.createdAt b.createdAt = false) ∧
    (∀ k : String, (listPrompts s).filter (fun r => r.createdAt == k) =
      (s.records.map Prod.snd).filter (fun r => r.createdAt == k)) := by
  refine ⟨pySortByCreatedDesc_perm _, ?_, fun k => pySortByCreatedDesc_filter _ k⟩
  have h := pySortByCreatedDesc_pairwise (s.records.map Prod.snd)
  exact h.imp (fun {a b} hab => by simpa [pyKeyGe] using hab)

/-- C9 counterexample: two submissions with the same `created_at` and
ids out of lexicographic order.  `list()` keeps submission order
(`["b", "a"]`), while the claim's tie rule demands `["a", "b"]`. -/
theorem listPrompts_tie_cex :
    (listPrompts (execOps sbNone
        [.submit "b" "second" none "2026-01-01T00:00:00+00:00",
         .submit "a" "first" none "2026-01-01T00:00:00+00:00"]
        (initStore "data/prompts.json"))).map PromptRecord.promptId = ["b", "a"] ∧
    specOrderedDesc (listPrompts (execOps sbNone
        [.submit "b" "second" none "2026-01-01T00:00:00+00:00",
         .submit "a" "first" none "2026-01-01T00:00:00+00:00"]
        (initStore "data/prompts.json"))) = false := by
  constructor
  · decide
  · decide

/-! ### Association-list lemmas -/

theorem dictGet_dictSet (l : List (String × α)) (k k2 : String) (v : α) :
    dictGet k2 (dictSet k v l) = if k2 = k then some v else dictGet k2 l := by
  induction l with
  | nil => simp [dictSet, dictGet]
  | cons kv rest ih =>
    obtain ⟨a, b⟩ := kv
    by_cases hka : k = a
    · subst hka
      by_cases h : k2 = k
      · simp [dictSet, dictGet, h]
      · simp [dictSet, dictGet, h]
    · by_cases h2 : k2 = a
      · subst h2
        have hne : ¬ k2 = k := fun hc => hka hc.symm
        simp [dictSet, dictGet, hka, hne]
      · simp [dictSet, dictGet, hka, h2, ih]

theorem dictGet_mem_keys (l : List (String × α)) (k : String) (v : α)
    (h : dictGet k l = some v) : k ∈ l.map Prod.fst := by
  induction l with
  | nil => simp [dictGet] at h
  | cons kv rest ih =>
    obtain ⟨a, b⟩ := kv
    by_cases hka : k = a
    · simp [hka]
    · simp only [dictGet, hka, if_false] at h
      simp only [List.map_cons, List.mem_cons]
      exact Or.inr (ih h)

theorem dictSet_keys_of_dictGet_some (l : List (String × α)) (k : String) (v v2 : α)
    (h : dictGet k l = some v) :
    (dictSet k v2 l).map Prod.fst = l.map Prod.fst := by
  induction l with
  | nil => simp [dictGet] at h
  | cons kv rest ih =>
    obtain ⟨a, b⟩ := kv
    by_cases hka : k = a
    · simp [dictSet, hka]
    · simp only [dictGet, hka, if_false] at h
      simp [dictSet, hka, ih h]

theorem dictSet_keys_subset (l : List (String × α)) (k j : String) (v : α) :
    j ∈ (dictSet k v l).map Prod.fst → j = k ∨ j ∈ l.map Prod.fst := by
  induction l with
  | nil =>
    intro h
    simp [dictSet] at h
    exact Or.inl h
  | cons kv rest ih =>
    obtain ⟨a, b⟩ := kv
    intro h
    by_cases hka : k = a
    · subst hka
      rw [dictSet, if_pos rfl, List.map_cons] at h
      rcases List.mem_cons.mp h with h | h
      · exact Or.inl h
      · exact Or.inr (List.mem_cons.mpr (Or.inr h))
    · rw [dictSet, if_neg hka, List.map_cons] at h
      rcases List.mem_cons.mp h with h | h
      · exact Or.inr (List.mem_cons.mpr (Or.inl h))
      · rcases ih h with h2 | h2
        · exact Or.inl h2
        · exact Or.inr (List.mem_cons.mpr (Or.inr h2))

theorem dictSet_keys_nodup (l : List (String × α)) (k : String) (v : α)
    (h : (l.map Prod.fst).Nodup) : ((dictSet k v l).map Prod.fst).Nodup := by
  induction l with
  | nil => simp [dictSet]
  | cons kv rest ih =>
    obtain ⟨a, b⟩ := kv
    rw [List.map_cons] at h
    rcases List.nodup_cons.mp h with ⟨ha, hrest⟩
    by_cases hka : k = a
    · subst hka
      simp only [dictSet, if_pos rfl, List.map_cons]
      exact List.nodup_cons.mpr ⟨ha, hrest⟩
    · simp only [dictSet, hka, if_false, List.map_cons, List.nodup_cons]
      refine ⟨?_, ih hrest⟩
      intro hmem
      rcases dictSet_keys_subset rest k a v hmem with h2 | h2
      · exact hka h2.symm
      · exact ha h2

theorem dictRemove_keys_sublist (l : List (String × α)) (k : String) :
    ((dictRemove k l).map Prod.fst).Sublist (l.map Prod.fst) :=
  List.Sublist.map Prod.fst (List.filter_sublist l)

/-! ### C2: persistence is a direct write, with no rollback -/

/-- C2 (amended): every mutating `PromptStore` operation applies its
in-memory change and then persists with a single direct
`write_text` of the full serialized record set — there is no temp file
and no rename — and a persistence failure propagates as an exception
while the in-memory mutation stays in place (no rollback); a
precondition failure raises before any mutation, leaving the state
unchanged. -/
theorem persist_direct_write_no_rollback
    (sb : Option String → Option String → Option Int)
    (op : StoreOp) (s : PromptStoreS) (h : op.isMutating = true) :
    (opApplyFull sb op s false).state = (opApplyFull sb op s true).state ∧
    (∀ e, opApplyE sb op s = .error e → (opApplyFull sb op s false).state = s) ∧
    (∀ s2, opApplyE sb op s = .ok s2 →
      (opApplyFull sb op s true).fs.head? = some (.writeJson s2.dbPath s2.records) ∧
      (opApplyFull sb op s true).fs.all (fun a => !a.isRename) = true) := by
  refine ⟨?_, ?_, ?_⟩
  · cases hE : opApplyE sb op s with
    | error e => simp [opApplyFull, hE]
    | ok s2 => simp [opApplyFull, hE, h]
  · intro e hE
    simp [opApplyFull, hE]
  · intro s2 hE
    cases op with
    | takeNext => simp [StoreOp.isMutating] at h
    | delete promptId =>
      cases hL : dictGet promptId s.records with
      | none => simp [opApplyFull, hE, hL, persistOps, FsOp.isRename, StoreOp.isMutating]
      | some r => simp [opApplyFull, hE, hL, persistOps, FsOp.isRename, StoreOp.isMutating]
    | submit promptId text projectId now =>
      simp [opApplyFull, hE, persistOps, FsOp.isRename, StoreOp.isMutating]
    | beginAttempt promptId now =>
      simp [opApplyFull, hE, persistOps, FsOp.isRename, StoreOp.isMutating]
    | complete promptId summary now =>
      simp [opApplyFull, hE, persistOps, FsOp.isRename, StoreOp.isMutating]
    | markFail promptId summary now =>
      simp [opApplyFull, hE, persistOps, FsOp.isRename, StoreOp.isMutating]
    | cancelOp promptId summary now =>
      simp [opApplyFull, hE, persistOps, FsOp.isRename, StoreOp.isMutating]
    | retry promptId now =>
      simp [opApplyFull, hE, persistOps, FsOp.isRename, StoreOp.isMutating]
    | edit promptId text now =>
      simp [opApplyFull, hE, persistOps, FsOp.isRename, StoreOp.isMutating]

/-- Witness for `persist_direct_write_no_rollback` at a concrete submit
on the empty store. -/
theorem persist_direct_write_no_rollback_witness :
    (StoreOp.submit "p1" "hello" none "2026-01-01T00:00:00+00:00").isMutating = true ∧
    ((opApplyFull sbNone (.submit "p1" "hello" none "2026-01-01T00:00:00+00:00")
        (initStore "data/prompts.json") false).state =
      (opApplyFull sbNone (.submit "p1" "hello" none "2026-01-01T00:00:00+00:00")
        (initStore "data/prompts.json") true).state ∧
     (∀ e, opApplyE sbNone (.submit "p1" "hello" none "2026-01-01T00:00:00+00:00")
        (initStore "data/prompts.json") = .error e →
        (opApplyFull sbNone (.submit "p1" "hello" none "2026-01-01T00:00:00+00:00")
          (initStore "data/prompts.json") false).state = initStore "data/prompts.json") ∧
     (∀ s2, opApplyE sbNone (.submit "p1" "hello" none "2026-01-01T00:00:00+00:00")
        (initStore "data/prompts.json") = .ok s2 →
        (opApplyFull sbNone (.submit "p1" "hello" none "2026-01-01T00:00:00+00:00")
          (initStore "data/prompts.json") true).fs.head? =
            some (.writeJson s2.dbPath s2.records) ∧
        (opApplyFull sbNone (.submit "p1" "hello" none "2026-01-01T00:00:00+00:00")
          (initStore "data/prompts.json") true).fs.all (fun a => !a.isRename) = true)) :=
  ⟨rfl, persist_direct_write_no_rollback sbNone _ _ rfl⟩

/-- C2 counterexample: a failing persist on submit leaves the new record
in memory (the state differs from the pre-operation state, so nothing was
rolled back), and the filesystem trace of a successful persist is a
single in-place write, not the write-to-temp-and-rename the claim
asserts. -/
theorem persist_atomicity_rollback_cex :
    (opApplyFull sbNone (.submit "p1" "hello" none "2026-01-01T00:00:00+00:00")
      (initStore "data/prompts.json") false).err.isSome = true ∧
    (opApplyFull sbNone (.submit "p1" "hello" none "2026-01-01T00:00:00+00:00")
      (initStore "data/prompts.json") false).state ≠ initStore "data/prompts.json" ∧
    (opApplyFull sbNone (.submit "p1" "hello" none "2026-01-01T00:00:00+00:00")
      (initStore "data/prompts.json") true).fs ≠
      specAtomicPersistOps
        ((opApplyFull sbNone (.submit "p1" "hello" none "2026-01-01T00:00:00+00:00")
          (initStore "data/prompts.json") true).state) ∧
    (opApplyFull sbNone (.submit "p1" "hello" none "2026-01-01T00:00:00+00:00")
      (initStore "data/prompts.json") true).fs.all (fun a => !a.isRename) = true := by
  refine ⟨by decide, by decide, by decide, by decide⟩

/-! ### C4: FIFO vs. record-status invariant

`delete_prompt` (server.py:1010-1025) removes the record but never purges
the pending FIFO; `next_prompt_id` (server.py:1060-1064) pops the FIFO
while the record stays `queued` until `begin_attempt`; and
`retry_prompt` (server.py:957-972) happily re-enqueues a still-queued
prompt, duplicating its FIFO entry.  The worker compensates by skipping
FIFO ids with no backing record (server.py:1377-1379).  What does hold of
every reachable state: every FIFO entry names a previously submitted
prompt, every live record was submitted, and the record keys stay
distinct. -/

/-- The ids introduced by the `submit` operations of a trace. -/
def submittedIds (ops : List StoreOp) : List String :=
  ops.filterMap (fun op =>
    match op with
    | .submit promptId _ _ _ => some promptId
    | _ => none)

theorem submittedIds_cons (op : StoreOp) (rest : List StoreOp) :
    submittedIds (op :: rest) = submittedIds [op] ++ submittedIds rest := by
  cases op <;> simp [submittedIds]

/-- The bookkeeping facts tracked through a trace. -/
def Tracks (S ids : List String) (s2 : PromptStoreS) : Prop :=
  (∀ j ∈ s2.pending, j ∈ S ++ ids) ∧
  (∀ j ∈ s2.records.map Prod.fst, j ∈ S ++ ids) ∧
  (s2.records.map Prod.fst).Nodup

theorem tracks_of_eq (S ids : List String) (s s2 : PromptStoreS)
    (hpend : s2.pending = s.pending)
    (hkeys : s2.records.map Prod.fst = s.records.map Prod.fst)
    (hp : ∀ j ∈ s.pending, j ∈ S) (hr : ∀ j ∈ s.records.map Prod.fst, j ∈ S)
    (hn : (s.records.map Prod.fst).Nodup) : Tracks S ids s2 := by
  refine ⟨?_, ?_, ?_⟩
  · intro j hj
    rw [hpend] at hj
    exact List.mem_append.mpr (Or.inl (hp j hj))
  · intro j hj
    rw [hkeys] at hj
    exact List.mem_append.mpr (Or.inl (hr j hj))
  · rw [hkeys]
    exact hn

theorem opStep_tracking (sb : Option String → Option String → Option Int)
    (op : StoreOp) (s : PromptStoreS) (S : List String)
    (hp : ∀ j ∈ s.pending, j ∈ S)
    (hr : ∀ j ∈ s.records.map Prod.fst, j ∈ S)
    (hn : (s.records.map Prod.fst).Nodup) :
    Tracks S (submittedIds [op]) (opStep sb s op) := by
  cases op with
  | submit promptId text projectId now =>
    refine ⟨?_, ?_, ?_⟩
    · intro j hj
      have hj2 : j ∈ s.pending ++ [promptId] := by
        simpa [opStep, opApplyE, addPrompt] using hj
      rcases List.mem_append.mp hj2 with h | h
      · exact List.mem_append.mpr (Or.inl (hp j h))
      · simp only [List.mem_singleton] at h
        subst h
        exact List.mem_append.mpr (Or.inr (by simp [submittedIds]))
    · intro j hj
      have hj2 : j ∈ (dictSet promptId
          { promptId := promptId, text := text, status := "queued", createdAt := now,
            updatedAt := now, enqueuedAt := now, logPath := promptLogPath promptId,
            projectId := projectId } s.records).map Prod.fst := by
        simpa [opStep, opApplyE, addPrompt] using hj
      rcases dictSet_keys_subset s.records promptId j _ hj2 with h | h
      · subst h
        exact List.mem_append.mpr (Or.inr (by simp [submittedIds]))
      · exact List.mem_append.mpr (Or.inl (hr j h))
    · simpa [opStep, opApplyE, addPrompt] using
        dictSet_keys_nodup s.records promptId _ hn
  | takeNext =>
    cases hpend : s.pending with
    | nil =>
      have hstep : opStep sb s .takeNext = s := by
        simp [opStep, opApplyE, nextPromptId, hpend]
      rw [hstep]
      exact tracks_of_eq S _ s s rfl rfl hp hr hn
    | cons a rest =>
      have hstep : opStep sb s .takeNext = { s with pending := rest } := by
        simp [opStep, opApplyE, nextPromptId, hpend]
      rw [hstep]
      refine ⟨?_, ?_, hn⟩
      · intro j hj
        have : j ∈ s.pending := by
          rw [hpend]
          exact List.mem_cons.mpr (Or.inr hj)
        exact List.mem_append.mpr (Or.inl (hp j this))
      · intro j hj
        exact List.mem_append.mpr (Or.inl (hr j hj))
  | beginAttempt promptId now =>
    cases hL : dictGet promptId s.records with
    | none =>
      have hstep : opStep sb s (.beginAttempt promptId now) = s := by
        simp [opStep, opApplyE, beginAttemptE, Except.map, hL]
      rw [hstep]
      exact tracks_of_eq S _ s s rfl rfl hp hr hn
    | some r =>
      refine tracks_of_eq S _ s _ ?_ ?_ hp hr hn
      · simp [opStep, opApplyE, beginAttemptE, Except.map, hL]
      · have hstep : (opStep sb s (.beginAttempt promptId now)).records =
            dictSet promptId (beginAttemptRecord sb r now) s.records := by
          simp [opStep, opApplyE, beginAttemptE, Except.map, hL]
        rw [hstep]
        exact dictSet_keys_of_dictGet_some s.records promptId r _ hL
  | complete promptId summary now =>
    cases hL : dictGet promptId s.records with
    | none =>
      have hstep : opStep sb s (.complete promptId summary now) = s := by
        simp [opStep, opApplyE, markCompletedE, updatePromptE, hL]
      rw [hstep]
      exact tracks_of_eq S _ s s rfl rfl hp hr hn
    | some r =>
      refine tracks_of_eq S _ s _ ?_ ?_ hp hr hn
      · simp [opStep, opApplyE, markCompletedE, updatePromptE, hL]
      · have hstep : (opStep sb s (.complete promptId summary now)).records =
            dictSet promptId (updateRecord sb r now (some "completed") (some (some summary)))
              s.records := by
          simp [opStep, opApplyE, markCompletedE, updatePromptE, hL]
        rw [hstep]
        exact dictSet_keys_of_dictGet_some s.records promptId r _ hL
  | markFail promptId summary now =>
    cases hL : dictGet promptId s.records with
    | none =>
      have hstep : opStep sb s (.markFail promptId summary now) = s := by
        simp [opStep, opApplyE, markFailedE, updatePromptE, hL]
      rw [hstep]
      exact tracks_of_eq S _ s s rfl rfl hp hr hn
    | some r =>
      refine tracks_of_eq S _ s _ ?_ ?_ hp hr hn
      · simp [opStep, opApplyE, markFailedE, updatePromptE, hL]
      · have hstep : (opStep sb s (.markFail promptId summary now)).records =
            dictSet promptId (updateRecord sb r now (some "failed") (some (some summary)))
              s.records := by
          simp [opStep, opApplyE, markFailedE, updatePromptE, hL]
        rw [hstep]
        exact dictSet_keys_of_dictGet_some s.records promptId r _ hL
  | cancelOp promptId summary now =>
    cases hL : dictGet promptId s.records with
    | none =>
      have hstep : opStep sb s (.cancelOp promptId summary now) = s := by
        simp [opStep, opApplyE, markCanceledE, updatePromptE, hL]
      rw [hstep]
      exact tracks_of_eq S _ s s rfl rfl hp hr hn
    | some r =>
      refine tracks_of_eq S _ s _ ?_ ?_ hp hr hn
      · simp [opStep, opApplyE, markCanceledE, updatePromptE, hL]
      · have hstep : (opStep sb s (.cancelOp promptId summary now)).records =
            dictSet promptId (updateRecord sb r now (some "canceled") (some (some summary)))
              s.records := by
          simp [opStep, opApplyE, markCanceledE, updatePromptE, hL]
        rw [hstep]
        exact dictSet_keys_of_dictGet_some s.records promptId r _ hL
  | retry promptId now =>
    cases hL : dictGet promptId s.records with
    | none =>
      have hstep : opStep sb s (.retry promptId now) = s := by
        simp [opStep, opApplyE, retryPromptE, hL]
      rw [hstep]
      exact tracks_of_eq S _ s s rfl rfl hp hr hn
    | some r =>
      by_cases hrun : r.status = "running"
      · have hstep : opStep sb s (.retry promptId now) = s := by
          simp [opStep, opApplyE, retryPromptE, hL, hrun]
        rw [hstep]
        exact tracks_of_eq S _ s s rfl rfl hp hr hn
      · have hid : promptId ∈ S := hr promptId (dictGet_mem_keys s.records promptId r hL)
        refine ⟨?_, ?_, ?_⟩
        · intro j hj
          have hj2 : j ∈ s.pending ++ [promptId] := by
            simpa [opStep, opApplyE, retryPromptE, hL, hrun] using hj
          rcases List.mem_append.mp hj2 with h | h
          · exact List.mem_append.mpr (Or.inl (hp j h))
          · simp only [List.mem_singleton] at h
            subst h
            exact List.mem_append.mpr (Or.inl hid)
        · intro j hj
          have hkeys : (opStep sb s (.retry promptId now)).records.map Prod.fst =
              s.records.map Prod.fst := by
            have hstep : (opStep sb s (.retry promptId now)).records =
                dictSet promptId
                  { r with status := "queued", enqueuedAt := now, startedAt := none,
                           currentWaitSeconds := none, updatedAt := now } s.records := by
              simp [opStep, opApplyE, retryPromptE, hL, hrun]
            rw [hstep]
            exact dictSet_keys_of_dictGet_some s.records promptId r _ hL
          rw [hkeys] at hj
          exact List.mem_append.mpr (Or.inl (hr j hj))
        · have hkeys : (opStep sb s (.retry promptId now)).records.map Prod.fst =
              s.records.map Prod.fst := by
            have hstep : (opStep sb s (.retry promptId now)).records =
                dictSet promptId
                  { r with status := "queued", enqueuedAt := now, startedAt := none,
                           currentWaitSeconds := none, updatedAt := now } s.records := by
              simp [opStep, opApplyE, retryPromptE, hL, hrun]
            rw [hstep]
            exact dictSet_keys_of_dictGet_some s.records promptId r _ hL
          rw [hkeys]
          exact hn
  | edit promptId text now =>
    by_cases hstrip : pyStrip text = ""
    · have hstep : opStep sb s (.edit promptId text now) = s := by
        simp [opStep, opApplyE, editPromptE, hstrip]
      rw [hstep]
      exact tracks_of_eq S _ s s rfl rfl hp hr hn
    · cases hL : dictGet promptId s.records with
      | none =>
        have hstep : opStep sb s (.edit promptId text now) = s := by
          simp [opStep, opApplyE, editPromptE, hstrip, hL]
        rw [hstep]
        exact tracks_of_eq S _ s s rfl rfl hp hr hn
      | some r =>
        by_cases hq : r.status = "queued"
        · refine tracks_of_eq S _ s _ ?_ ?_ hp hr hn
          · simp [opStep, opApplyE, editPromptE, hstrip, hL, hq]
          · have hstep : (opStep sb s (.edit promptId text now)).records =
                dictSet promptId { r with text := pyStrip text, updatedAt := now }
                  s.records := by
              simp [opStep, opApplyE, editPromptE, hstrip, hL, hq]
            rw [hstep]
            exact dictSet_keys_of_dictGet_some s.records promptId r _ hL
        · have hstep : opStep sb s (.edit promptId text now) = s := by
            simp [opStep, opApplyE, editPromptE, hstrip, hL, hq]
          rw [hstep]
          exact tracks_of_eq S _ s s rfl rfl hp hr hn
  | delete promptId =>
    cases hL : dictGet promptId s.records with
    | none =>
      have hstep : opStep sb s (.delete promptId) = s := by
        simp [opStep, opApplyE, deletePromptE, Except.map, hL]
      rw [hstep]
      exact tracks_of_eq S _ s s rfl rfl hp hr hn
    | some r =>
      by_cases hq : r.status = "queued"
      · have hstep : opStep sb s (.delete promptId) =
            { s with records := dictRemove promptId s.records } := by
          simp [opStep, opApplyE, deletePromptE, Except.map, hL, hq]
        rw [hstep]
        refine ⟨?_, ?_, ?_⟩
        · intro j hj
          exact List.mem_append.mpr (Or.inl (hp j hj))
        · intro j hj
          have := (dictRemove_keys_sublist s.records promptId).subset hj
          exact List.mem_append.mpr (Or.inl (hr j this))
        · exact (dictRemove_keys_sublist s.records promptId).nodup hn
      · have hstep : opStep sb s (.delete promptId) = s := by
          simp [opStep, opApplyE, deletePromptE, Except.map, hL, hq]
        rw [hstep]
        exact tracks_of_eq S _ s s rfl rfl hp hr hn

theorem execOps_tracking (sb : Option String → Option String → Option Int) :
    ∀ (ops : List StoreOp) (s : PromptStoreS) (S : List String),
      (∀ j ∈ s.pending, j ∈ S) →
      (∀ j ∈ s.records.map Prod.fst, j ∈ S) →
      (s.records.map Prod.fst).Nodup →
      Tracks S (submittedIds ops) (execOps sb ops s) := by
  intro ops
  induction ops with
  | nil =>
    intro s S hp hr hn
    refine ⟨?_, ?_, ?_⟩
    · intro j hj
      have : j ∈ s.pending := by simpa [execOps] using hj
      exact List.mem_append.mpr (Or.inl (hp j this))
    · intro j hj
      have : j ∈ s.records.map Prod.fst := by simpa [execOps] using hj
      exact List.mem_append.mpr (Or.inl (hr j this))
    · simpa [execOps] using hn
  | cons op rest ih =>
    intro s S hp hr hn
    have hstep := opStep_tracking sb op s S hp hr hn
    have hmain := ih (opStep sb s op) (S ++ submittedIds [op])
      hstep.1 hstep.2.1 hstep.2.2
    refine ⟨?_, ?_, ?_⟩
    · intro j hj
      have hj2 : j ∈ (execOps sb rest (opStep sb s op)).pending := by
        simpa [execOps] using hj
      have := hmain.1 j hj2
      rw [submittedIds_cons, ← List.append_assoc]
      exact this
    · intro j hj
      have hj2 : j ∈ (execOps sb rest (opStep sb s op)).records.map Prod.fst := by
        simpa [execOps] using hj
      have := hmain.2.1 j hj2
      rw [submittedIds_cons, ← List.append_assoc]
      exact this
    · have := hmain.2.2
      simpa [execOps] using this

/-- C4 (amended): after any trace of submit, take_next, begin_attempt,
complete/fail/cancel, retry, edit and delete operations starting from the
empty store, every id in the pending FIFO is the id of a previously
submitted prompt (it may be dangling after a delete, duplicated after a
retry of a still-queued prompt, and its record may be in any status);
every live record's id was submitted; and the record keys are pairwise
distinct. -/
theorem fifo_entries_were_submitted (sb : Option String → Option String → Option Int)
    (dbPath : String) (ops : List StoreOp) :
    (∀ j ∈ (execOps sb ops (initStore dbPath)).pending, j ∈ submittedIds ops) ∧
    (∀ j ∈ (execOps sb ops (initStore dbPath)).records.map Prod.fst,
        j ∈ submittedIds ops) ∧
    ((execOps sb ops (initStore dbPath)).records.map Prod.fst).Nodup := by
  have h := execOps_tracking sb ops (initStore dbPath) []
    (by intro j hj; simp [initStore] at hj)
    (by intro j hj; simp [initStore] at hj)
    (by simp [initStore])
  refine ⟨?_, ?_, h.2.2⟩
  · intro j hj
    simpa using h.1 j hj
  · intro j hj
    simpa using h.2.1 j hj

/-- C4 counterexample: the trace submit "a", submit "b", delete "a",
retry "b", begin_attempt "b" reaches a state whose FIFO holds the
dangling id "a" and the id "b" twice while "b" is `running` — violating
all three conjuncts of the claimed invariant (and, before the
begin_attempt, "b" is `queued` with two FIFO entries rather than exactly
one). -/
theorem fifo_invariant_cex :
    (dictGet "a" (execOps sbNone
        [.submit "a" "one" none "T1", .submit "b" "two" none "T2",
         .delete "a", .retry "b" "T3"]
        (initStore "db")).records = none ∧
     "a" ∈ (execOps sbNone
        [.submit "a" "one" none "T1", .submit "b" "two" none "T2",
         .delete "a", .retry "b" "T3"]
        (initStore "db")).pending) ∧
    ((dictGet "b" (execOps sbNone
        [.submit "a" "one" none "T1", .submit "b" "two" none "T2",
         .delete "a", .retry "b" "T3"]
        (initStore "db")).records).map PromptRecord.status = some "queued" ∧
     (execOps sbNone
        [.submit "a" "one" none "T1", .submit "b" "two" none "T2",
         .delete "a", .retry "b" "T3"]
        (initStore "db")).pending.count "b" = 2) ∧
    ((dictGet "b" (execOps sbNone
        [.submit "a" "one" none "T1", .submit "b" "two" none "T2",
         .delete "a", .retry "b" "T3", .beginAttempt "b" "T4"]
        (initStore "db")).records).map PromptRecord.status = some "running" ∧
     (execOps sbNone
        [.submit "a" "one" none "T1", .submit "b" "two" none "T2",
         .delete "a", .retry "b" "T3", .beginAttempt "b" "T4"]
        (initStore "db")).pending.count "b" = 2) := by
  refine ⟨⟨by decide, by decide⟩, ⟨by decide, by decide⟩, by decide, by decide⟩

/-! ## Load and crash recovery (`server.py:665-811`) (C5) -/

/-- One record's payload as read back from the JSON document in `_load`
(server.py:665-704).  Fields that `_load` defaults with `setdefault` /
`or` are optional here; `text`, `created_at`, `updated_at` and `log_path`
must be present for `PromptRecord(**payload)` to succeed. -/
structure PersistedPayload where
  text : String
  status : Option String := none
  createdAt : String
  updatedAt : String
  enqueuedAt : Option String := none
  logPath : String
  resultSummary : Option String := none
  attempts : Option Nat := none
  projectId : Option String := none
  startedAt : Option String := none
  currentWaitSeconds : Option Int := none
  lastWaitSeconds : Option Int := none
  lastRunSeconds : Option Int := none
  lastFinishedAt : Option String := none
deriving DecidableEq

/-- `str(payload.get("status") or "queued")` (server.py:682). -/
def effStatus (p : PersistedPayload) : String :=
  pyOrS p.status "queued"

/-- The record `_load` builds for one payload (server.py:677-698). -/
def loadRecord (promptId : String) (p : PersistedPayload) (now : String) : PromptRecord :=
  { promptId := promptId
    text := p.text
    status := effStatus p
    createdAt := p.createdAt
    updatedAt := p.updatedAt
    enqueuedAt := pyOrS p.enqueuedAt (pyOrS (some p.createdAt) now)
    logPath := p.logPath
    resultSummary := p.resultSummary
    attempts := p.attempts.getD 0
    projectId := p.projectId
    startedAt := p.startedAt
    currentWaitSeconds := p.currentWaitSeconds
    lastWaitSeconds := p.lastWaitSeconds
    lastRunSeconds := p.lastRunSeconds
    lastFinishedAt :=
      if effStatus p ∈ TERMINAL_PROMPT_STATUSES then pyOrO p.lastFinishedAt (some p.updatedAt)
      else p.lastFinishedAt }

/-- The loop body of `_load` (server.py:698-704): store the record, then
enqueue a queued id or remember a running one as stale. -/
def loadStep (now : String) (s : PromptStoreS) (kv : String × PersistedPayload) :
    PromptStoreS :=
  if effStatus kv.2 = "queued" then
    { s with records := dictSet kv.1 (loadRecord kv.1 kv.2 now) s.records,
             pending := s.pending ++ [kv.1] }
  else if effStatus kv.2 = "running" then
    { s with records := dictSet kv.1 (loadRecord kv.1 kv.2 now) s.records,
             staleRunning := s.staleRunning ++ [kv.1] }
  else
    { s with records := dictSet kv.1 (loadRecord kv.1 kv.2 now) s.records }

/-- `PromptStore._load` over the parsed JSON document.  `json.loads`
collapses duplicate keys before `_load` iterates, so the key list of
`data` is assumed `Nodup` in the theorems. -/
def loadStore (dbPath : String) (data : List (String × PersistedPayload)) (now : String) :
    PromptStoreS :=
  data.foldl (loadStep now) (initStore dbPath)

def interruptedSummary : String :=
  "Prompt interrupted when backend restarted; marked as failed"

/-- `_append_interrupted_attempt` (server.py:788-811): the attempt block
appended to the prompt's log.  `ctx` is the value of
`build_prompt_context(record.project_id, ...)` (an external read). -/
def interruptedAttemptBlock (r : PromptRecord) (summary ctx interruptedAt : String) :
    String :=
  let contextText := if pyStrip ctx = "" then "<context unavailable>" else pyStrip ctx
  let ca := r.createdAt
  String.intercalate "\n\n"
    [s!"Prompt received at {ca}",
     "---",
     r.text,
     "",
     "Context provided to Codex:",
     contextText,
     "",
     summary,
     "Attempt status: failed",
     s!"Attempt completed at {interruptedAt}",
     "Elapsed seconds 0.000",
     "Codex stdout:\n<no output captured>",
     "Codex stderr:\nPrompt run aborted when the backend restarted; please retry."] ++ "\n"

/-- The loop body of `_recover_inflight_prompts` (server.py:771-783); the
accumulator carries the store, the `(log_path, block)` appends performed
so far, and the `recovered` list. -/
def recoverStep (sb : Option String → Option String → Option Int)
    (ctxOf : Option String → String) (rnow : String)
    (acc : PromptStoreS × List (String × String) × List String) (promptId : String) :
    PromptStoreS × List (String × String) × List String :=
  match dictGet promptId acc.1.records with
  | none => acc
  | some r =>
    if r.status = "running" then
      let r2 := updateRecord sb r rnow (some "failed") (some (some interruptedSummary))
      let block := interruptedAttemptBlock r interruptedSummary (ctxOf r.projectId) rnow
      ({ acc.1 with records := dictSet promptId r2 acc.1.records },
       acc.2.1 ++ [(r.logPath, block)],
       acc.2.2 ++ [promptId])
    else acc

/-- `PromptStore._recover_inflight_prompts` (server.py:767-786); returns
the new store state plus the log appends it performed. -/
def recoverInflight (sb : Option String → Option String → Option Int)
    (ctxOf : Option String → String) (rnow : String) (s : PromptStoreS) :
    PromptStoreS × List (String × String) :=
  if s.staleRunning = [] then (s, [])
  else
    let res := s.staleRunning.foldl (recoverStep sb ctxOf rnow) (s, [], [])
    ({ res.1 with recoveredPromptIds := res.1.recoveredPromptIds ++ res.2.2,
                  staleRunning := [] },
     res.2.1)

theorem updateRecord_failed_fields (sb : Option String → Option String → Option Int)
    (r : PromptRecord) (now msg : String) :
    (updateRecord sb r now (some "failed") (some (some msg))).status = "failed" ∧
    (updateRecord sb r now (some "failed") (some (some msg))).resultSummary = some msg ∧
    (updateRecord sb r now (some "failed") (some (some msg))).logPath = r.logPath := by
  by_cases hrun : r.status = "running"
  · simp [updateRecord, TERMINAL_PROMPT_STATUSES, hrun]
  · simp [updateRecord, TERMINAL_PROMPT_STATUSES, hrun]

theorem loadStep_records (now : String) (s : PromptStoreS) (kv : String × PersistedPayload) :
    (loadStep now s kv).records = dictSet kv.1 (loadRecord kv.1 kv.2 now) s.records := by
  unfold loadStep
  split_ifs <;> rfl

theorem loadStep_recovered (now : String) (s : PromptStoreS) (kv : String × PersistedPayload) :
    (loadStep now s kv).recoveredPromptIds = s.recoveredPromptIds := by
  unfold loadStep
  split_ifs <;> rfl

theorem loadFold_records (now : String) :
    ∀ (data : List (String × PersistedPayload)) (s : PromptStoreS),
      (data.foldl (loadStep now) s).records =
        data.foldl (fun recs kv => dictSet kv.1 (loadRecord kv.1 kv.2 now) recs) s.records := by
  intro data
  induction data with
  | nil => intro s; rfl
  | cons kv rest ih =>
    intro s
    rw [List.foldl_cons, List.foldl_cons, ih, loadStep_records]

theorem loadFold_recovered (now : String) :
    ∀ (data : List (String × PersistedPayload)) (s : PromptStoreS),
      (data.foldl (loadStep now) s).recoveredPromptIds = s.recoveredPromptIds := by
  intro data
  induction data with
  | nil => intro s; rfl
  | cons kv rest ih =>
    intro s
    rw [List.foldl_cons, ih, loadStep_recovered]

theorem loadFold_staleRunning (now : String) :
    ∀ (data : List (String × PersistedPayload)) (s : PromptStoreS),
      (data.foldl (loadStep now) s).staleRunning =
        s.staleRunning ++
          (data.filter (fun kv => effStatus kv.2 == "running")).map Prod.fst := by
  intro data
  induction data with
  | nil => intro s; simp
  | cons kv rest ih =>
    intro s
    rw [List.foldl_cons, ih]
    by_cases hq : effStatus kv.2 = "queued"
    · have hnr : ¬ effStatus kv.2 = "running" := by
        rw [hq]; decide
      simp [loadStep, hq, List.filter_cons, hnr]
    · by_cases hr : effStatus kv.2 = "running"
      · simp [loadStep, hq, hr, List.filter_cons]
      · simp [loadStep, hq, hr, List.filter_cons]

theorem dictGet_foldSet_not_mem {β : Type} (g : String × β → PromptRecord) :
    ∀ (data : List (String × β)) (recs : List (String × PromptRecord)) (id : String),
      id ∉ data.map Prod.fst →
      dictGet id (data.foldl (fun acc kv => dictSet kv.1 (g kv) acc) recs) =
        dictGet id recs := by
  intro data
  induction data with
  | nil => intro recs id _; rfl
  | cons kv rest ih =>
    intro recs id hmem
    rw [List.map_cons] at hmem
    have h1 : id ≠ kv.1 := fun hc => hmem (List.mem_cons.mpr (Or.inl hc))
    have h2 : id ∉ rest.map Prod.fst := fun hc => hmem (List.mem_cons.mpr (Or.inr hc))
    rw [List.foldl_cons, ih _ _ h2, dictGet_dictSet, if_neg h1]

theorem dictGet_foldSet_mem {β : Type} (g : String × β → PromptRecord) :
    ∀ (data : List (String × β)) (recs : List (String × PromptRecord)) (id : String)
      (p : β),
      (id, p) ∈ data → (data.map Prod.fst).Nodup →
      dictGet id (data.foldl (fun acc kv => dictSet kv.1 (g kv) acc) recs) =
        some (g (id, p)) := by
  intro data
  induction data with
  | nil => intro recs id p hmem _; simp at hmem
  | cons kv rest ih =>
    intro recs id p hmem hnd
    rw [List.map_cons] at hnd
    rcases List.nodup_cons.mp hnd with ⟨hhead, hrest⟩
    rcases List.mem_cons.mp hmem with h | h
    · subst h
      rw [List.foldl_cons, dictGet_foldSet_not_mem g rest _ id hhead,
        dictGet_dictSet, if_pos rfl]
    · rw [List.foldl_cons]
      exact ih _ id p h hrest

/-- Looking up a loaded record. -/
theorem loadStore_dictGet (dbPath lnow : String) (data : List (String × PersistedPayload))
    (id : String) (p : PersistedPayload)
    (hmem : (id, p) ∈ data) (hnd : (data.map Prod.fst).Nodup) :
    dictGet id (loadStore dbPath data lnow).records = some (loadRecord id p lnow) := by
  rw [loadStore, loadFold_records]
  exact dictGet_foldSet_mem (fun kv => loadRecord kv.1 kv.2 lnow) data _ id p hmem hnd

theorem recoverStep_recoveredIds (sb : Option String → Option String → Option Int)
    (ctxOf : Option String → String) (rnow : String)
    (acc : PromptStoreS × List (String × String) × List String) (j : String) :
    (recoverStep sb ctxOf rnow acc j).1.recoveredPromptIds =
      acc.1.recoveredPromptIds := by
  unfold recoverStep
  split
  · rfl
  · split <;> rfl

theorem recoverFold_recoveredIds (sb : Option String → Option String → Option Int)
    (ctxOf : Option String → String) (rnow : String) :
    ∀ (ids : List String) (acc : PromptStoreS × List (String × String) × List String),
      (ids.foldl (recoverStep sb ctxOf rnow) acc).1.recoveredPromptIds =
        acc.1.recoveredPromptIds := by
  intro ids
  induction ids with
  | nil => intro acc; rfl
  | cons j rest ih =>
    intro acc
    rw [List.foldl_cons, ih, recoverStep_recoveredIds]

theorem recoverFold_untouched (sb : Option String → Option String → Option Int)
    (ctxOf : Option String → String) (rnow : String) :
    ∀ (ids : List String) (acc : PromptStoreS × List (String × String) × List String)
      (id path : String),
      id ∉ ids →
      (∀ j ∈ ids, ∀ rj, dictGet j acc.1.records = some rj → rj.logPath ≠ path) →
      dictGet id (ids.foldl (recoverStep sb ctxOf rnow) acc).1.records =
          dictGet id acc.1.records ∧
        (ids.foldl (recoverStep sb ctxOf rnow) acc).2.2.count id = acc.2.2.count id ∧
        (ids.foldl (recoverStep sb ctxOf rnow) acc).2.1.filter (fun e => e.1 == path) =
          acc.2.1.filter (fun e => e.1 == path) := by
  intro ids
  induction ids with
  | nil => intro acc id path _ _; exact ⟨rfl, rfl, rfl⟩
  | cons j rest ih =>
    intro acc id path hid hlog
    have hidj : id ≠ j := fun hc => hid (List.mem_cons.mpr (Or.inl hc))
    have hidr : id ∉ rest := fun hc => hid (List.mem_cons.mpr (Or.inr hc))
    rw [List.foldl_cons]
    cases hL : dictGet j acc.1.records with
    | none =>
      have hstep : recoverStep sb ctxOf rnow acc j = acc := by
        unfold recoverStep
        rw [hL]
      rw [hstep]
      exact ih acc id path hidr (fun j2 hj2 => hlog j2 (List.mem_cons.mpr (Or.inr hj2)))
    | some r =>
      by_cases hrun : r.status = "running"
      · have hpath : r.logPath ≠ path := hlog j (List.mem_cons.mpr (Or.inl rfl)) r hL
        have hupd := updateRecord_failed_fields sb r rnow interruptedSummary
        have hstep : recoverStep sb ctxOf rnow acc j =
            ({ acc.1 with
                records := dictSet j (updateRecord sb r rnow (some "failed")
                  (some (some interruptedSummary))) acc.1.records },
              acc.2.1 ++ [(r.logPath, interruptedAttemptBlock r interruptedSummary
                (ctxOf r.projectId) rnow)],
              acc.2.2 ++ [j]) := by
          simp [recoverStep, hL, hrun]
        rw [hstep]
        have hside : ∀ j2 ∈ rest, ∀ rj2,
            dictGet j2 (dictSet j (updateRecord sb r rnow (some "failed")
              (some (some interruptedSummary))) acc.1.records) = some rj2 →
            rj2.logPath ≠ path := by
          intro j2 hj2 rj2 hget
          rw [dictGet_dictSet] at hget
          by_cases hj2j : j2 = j
          · rw [if_pos hj2j] at hget
            have hEq := Option.some.inj hget
            rw [← hEq, hupd.2.2]
            exact hpath
          · rw [if_neg hj2j] at hget
            exact hlog j2 (List.mem_cons.mpr (Or.inr hj2)) rj2 hget
        have hrec := ih
          ({ acc.1 with
              records := dictSet j (updateRecord sb r rnow (some "failed")
                (some (some interruptedSummary))) acc.1.records },
            acc.2.1 ++ [(r.logPath, interruptedAttemptBlock r interruptedSummary
              (ctxOf r.projectId) rnow)],
            acc.2.2 ++ [j]) id path hidr hside
        refine ⟨?_, ?_, ?_⟩
        · rw [hrec.1, dictGet_dictSet, if_neg hidj]
        · rw [hrec.2.1, List.count_append]
          have : [j].count id = 0 := by
            simp [List.count_singleton]
            exact fun hc => hidj hc.symm
          rw [this, Nat.add_zero]
        · rw [hrec.2.2, List.filter_append]
          have : [(r.logPath, interruptedAttemptBlock r interruptedSummary
              (ctxOf r.projectId) rnow)].filter (fun e => e.1 == path) = [] := by
            simp [List.filter_cons]
            exact hpath
          rw [this, List.append_nil]
      · have hstep : recoverStep sb ctxOf rnow acc j = acc := by
          simp [recoverStep, hL, hrun]
        rw [hstep]
        exact ih acc id path hidr (fun j2 hj2 => hlog j2 (List.mem_cons.mpr (Or.inr hj2)))

theorem recoverFold_spec (sb : Option String → Option String → Option Int)
    (ctxOf : Option String → String) (rnow : String) :
    ∀ (ids : List String) (acc : PromptStoreS × List (String × String) × List String)
      (id : String) (r : PromptRecord),
      ids.Nodup →
      id ∈ ids →
      dictGet id acc.1.records = some r →
      r.status = "running" →
      (∀ j ∈ ids, j ≠ id → ∀ rj, dictGet j acc.1.records = some rj →
        rj.logPath ≠ r.logPath) →
      dictGet id (ids.foldl (recoverStep sb ctxOf rnow) acc).1.records =
          some (updateRecord sb r rnow (some "failed") (some (some interruptedSummary))) ∧
        (ids.foldl (recoverStep sb ctxOf rnow) acc).2.2.count id =
          acc.2.2.count id + 1 ∧
        (ids.foldl (recoverStep sb ctxOf rnow) acc).2.1.filter
            (fun e => e.1 == r.logPath) =
          acc.2.1.filter (fun e => e.1 == r.logPath) ++
            [(r.logPath, interruptedAttemptBlock r interruptedSummary
              (ctxOf r.projectId) rnow)] := by
  intro ids
  induction ids with
  | nil =>
    intro acc id r _ hmem
    simp at hmem
  | cons j rest ih =>
    intro acc id r hnd hmem hget hrun hlog
    rcases List.nodup_cons.mp hnd with ⟨hjrest, hndrest⟩
    rw [List.foldl_cons]
    by_cases hij : id = j
    · subst hij
      have hstep : recoverStep sb ctxOf rnow acc id =
          ({ acc.1 with
              records := dictSet id (updateRecord sb r rnow (some "failed")
                (some (some interruptedSummary))) acc.1.records },
            acc.2.1 ++ [(r.logPath, interruptedAttemptBlock r interruptedSummary
              (ctxOf r.projectId) rnow)],
            acc.2.2 ++ [id]) := by
        simp [recoverStep, hget, hrun]
      rw [hstep]
      have hside : ∀ j2 ∈ rest, ∀ rj2,
          dictGet j2 (dictSet id (updateRecord sb r rnow (some "failed")
            (some (some interruptedSummary))) acc.1.records) = some rj2 →
          rj2.logPath ≠ r.logPath := by
        intro j2 hj2 rj2 hg
        have hne : j2 ≠ id := fun hc => hjrest (hc ▸ hj2)
        rw [dictGet_dictSet, if_neg hne] at hg
        exact hlog j2 (List.mem_cons.mpr (Or.inr hj2)) hne rj2 hg
      have hrec := recoverFold_untouched sb ctxOf rnow rest
        ({ acc.1 with
            records := dictSet id (updateRecord sb r rnow (some "failed")
              (some (some interruptedSummary))) acc.1.records },
          acc.2.1 ++ [(r.logPath, interruptedAttemptBlock r interruptedSummary
            (ctxOf r.projectId) rnow)],
          acc.2.2 ++ [id]) id r.logPath hjrest hside
      refine ⟨?_, ?_, ?_⟩
      · rw [hrec.1]
        show dictGet id (dictSet id _ acc.1.records) = _
        rw [dictGet_dictSet, if_pos rfl]
      · rw [hrec.2.1]
        show (acc.2.2 ++ [id]).count id = acc.2.2.count id + 1
        rw [List.count_append]
        simp
      · rw [hrec.2.2, List.filter_append]
        simp
    · have hmemr : id ∈ rest := by
        rcases List.mem_cons.mp hmem with h | h
        · exact absurd h hij
        · exact h
      cases hL : dictGet j acc.1.records with
      | none =>
        have hstep : recoverStep sb ctxOf rnow acc j = acc := by
          simp [recoverStep, hL]
        rw [hstep]
        exact ih acc id r hndrest hmemr hget hrun
          (fun j2 hj2 hne => hlog j2 (List.mem_cons.mpr (Or.inr hj2)) hne)
      | some rj =>
        by_cases hrunj : rj.status = "running"
        · have hjid : j ≠ id := fun hc => hij hc.symm
          have hpathj : rj.logPath ≠ r.logPath :=
            hlog j (List.mem_cons.mpr (Or.inl rfl)) hjid rj hL
          have hstep : recoverStep sb ctxOf rnow acc j =
              ({ acc.1 with
                  records := dictSet j (updateRecord sb rj rnow (some "failed")
                    (some (some interruptedSummary))) acc.1.records },
                acc.2.1 ++ [(rj.logPath, interruptedAttemptBlock rj interruptedSummary
                  (ctxOf rj.projectId) rnow)],
                acc.2.2 ++ [j]) := by
            simp [recoverStep, hL, hrunj]
          rw [hstep]
          have hget2 : dictGet id (dictSet j (updateRecord sb rj rnow (some "failed")
              (some (some interruptedSummary))) acc.1.records) = some r := by
            rw [dictGet_dictSet, if_neg hij]
            exact hget
          have hside : ∀ j2 ∈ rest, j2 ≠ id → ∀ rj2,
              dictGet j2 (dictSet j (updateRecord sb rj rnow (some "failed")
                (some (some interruptedSummary))) acc.1.records) = some rj2 →
              rj2.logPath ≠ r.logPath := by
            intro j2 hj2 hne rj2 hg
            rw [dictGet_dictSet] at hg
            by_cases hj2j : j2 = j
            · rw [if_pos hj2j] at hg
              have hEq := Option.some.inj hg
              rw [← hEq, (updateRecord_failed_fields sb rj rnow interruptedSummary).2.2]
              exact hpathj
            · rw [if_neg hj2j] at hg
              exact hlog j2 (List.mem_cons.mpr (Or.inr hj2)) hne rj2 hg
          have hrec := ih
            ({ acc.1 with
                records := dictSet j (updateRecord sb rj rnow (some "failed")
                  (some (some interruptedSummary))) acc.1.records },
              acc.2.1 ++ [(rj.logPath, interruptedAttemptBlock rj interruptedSummary
                (ctxOf rj.projectId) rnow)],
              acc.2.2 ++ [j]) id r hndrest hmemr hget2 hrun hside
          refine ⟨hrec.1, ?_, ?_⟩
          · rw [hrec.2.1]
            show (acc.2.2 ++ [j]).count id + 1 = acc.2.2.count id + 1
            rw [List.count_append]
            have : [j].count id = 0 := by
              simp [List.count_singleton]
              exact fun hc => hij hc.symm
            rw [this, Nat.add_zero]
          · rw [hrec.2.2, List.filter_append]
            have : [(rj.logPath, interruptedAttemptBlock rj interruptedSummary
                (ctxOf rj.projectId) rnow)].filter (fun e => e.1 == r.logPath) = [] := by
              simp [List.filter_cons]
              exact hpathj
            rw [this, List.append_nil]
        · have hstep : recoverStep sb ctxOf rnow acc j = acc := by
            simp [recoverStep, hL, hrunj]
          rw [hstep]
          exact ih acc id r hndrest hmemr hget hrun
            (fun j2 hj2 hne => hlog j2 (List.mem_cons.mpr (Or.inr hj2)) hne)

/-- C5 (confirmed): for every record persisted as `running`, loading the
store rewrites it to `failed` with exactly the interruption summary,
appends exactly one interruption attempt block to that prompt's log, and
surfaces the id through the recovered-ids list exactly once — consumed
once, gone afterwards.  Distinct prompts are assumed to own distinct log
paths (`prompt_<id>.log` by construction) and `json.loads` has collapsed
duplicate keys. -/
theorem recover_inflight_rewrites_running
    (sb : Option String → Option String → Option Int)
    (ctxOf : Option String → String) (dbPath lnow rnow : String)
    (data : List (String × PersistedPayload)) (id : String) (p : PersistedPayload)
    (hnd : (data.map Prod.fst).Nodup)
    (hmem : (id, p) ∈ data)
    (hrun : effStatus p = "running")
    (hlog : ∀ q ∈ data, q.1 ≠ id → q.2.logPath ≠ p.logPath) :
    ((dictGet id (recoverInflight sb ctxOf rnow
        (loadStore dbPath data lnow)).1.records).map PromptRecord.status =
      some "failed") ∧
    ((dictGet id (recoverInflight sb ctxOf rnow
        (loadStore dbPath data lnow)).1.records).map PromptRecord.resultSummary =
      some (some interruptedSummary)) ∧
    ((recoverInflight sb ctxOf rnow
        (loadStore dbPath data lnow)).1.recoveredPromptIds.count id = 1) ∧
    ((consumeRecoveredPrompts (recoverInflight sb ctxOf rnow
        (loadStore dbPath data lnow)).1).1.count id = 1) ∧
    ((consumeRecoveredPrompts (consumeRecoveredPrompts (recoverInflight sb ctxOf rnow
        (loadStore dbPath data lnow)).1).2).1 = []) ∧
    ((recoverInflight sb ctxOf rnow (loadStore dbPath data lnow)).2.filter
        (fun e => e.1 == p.logPath) =
      [(p.logPath, interruptedAttemptBlock (loadRecord id p lnow) interruptedSummary
        (ctxOf p.projectId) rnow)]) := by
  have hstale : (loadStore dbPath data lnow).staleRunning =
      (data.filter (fun kv => effStatus kv.2 == "running")).map Prod.fst := by
    rw [loadStore, loadFold_staleRunning]
    simp [initStore]
  have hidstale : id ∈ (loadStore dbPath data lnow).staleRunning := by
    rw [hstale]
    exact List.mem_map.mpr ⟨(id, p), List.mem_filter.mpr ⟨hmem, by simp [hrun]⟩, rfl⟩
  have hstalend : (loadStore dbPath data lnow).staleRunning.Nodup := by
    rw [hstale]
    exact hnd.sublist (List.Sublist.map Prod.fst (List.filter_sublist data))
  have hgetid : dictGet id (loadStore dbPath data lnow).records =
      some (loadRecord id p lnow) := loadStore_dictGet dbPath lnow data id p hmem hnd
  have hrrun : (loadRecord id p lnow).status = "running" := hrun
  have htech : ∀ j ∈ (loadStore dbPath data lnow).staleRunning, j ≠ id →
      ∀ rj, dictGet j (loadStore dbPath data lnow).records = some rj →
      rj.logPath ≠ (loadRecord id p lnow).logPath := by
    intro j hj hne rj hg
    rw [hstale] at hj
    obtain ⟨kv, hkv, hfst⟩ := List.mem_map.mp hj
    obtain ⟨hkvdata, _⟩ := List.mem_filter.mp hkv
    have hmem2 : (j, kv.2) ∈ data := by
      rw [← hfst]
      exact hkvdata
    have hgj : dictGet j (loadStore dbPath data lnow).records =
        some (loadRecord j kv.2 lnow) := loadStore_dictGet dbPath lnow data j kv.2 hmem2 hnd
    have hrj : rj = loadRecord j kv.2 lnow := Option.some.inj (hg.symm.trans hgj)
    rw [hrj]
    exact hlog (j, kv.2) hmem2 hne
  have hne : (loadStore dbPath data lnow).staleRunning ≠ [] := by
    intro hemp
    rw [hemp] at hidstale
    exact absurd hidstale (List.not_mem_nil id)
  have hmain := recoverFold_spec sb ctxOf rnow (loadStore dbPath data lnow).staleRunning
    ((loadStore dbPath data lnow), [], []) id (loadRecord id p lnow)
    hstalend hidstale hgetid hrrun htech
  have hri : recoverInflight sb ctxOf rnow (loadStore dbPath data lnow) =
      ({ ((loadStore dbPath data lnow).staleRunning.foldl (recoverStep sb ctxOf rnow)
          ((loadStore dbPath data lnow), [], [])).1 with
          recoveredPromptIds :=
            ((loadStore dbPath data lnow).staleRunning.foldl (recoverStep sb ctxOf rnow)
              ((loadStore dbPath data lnow), [], [])).1.recoveredPromptIds ++
            ((loadStore dbPath data lnow).staleRunning.foldl (recoverStep sb ctxOf rnow)
              ((loadStore dbPath data lnow), [], [])).2.2,
          staleRunning := [] },
        ((loadStore dbPath data lnow).staleRunning.foldl (recoverStep sb ctxOf rnow)
          ((loadStore dbPath data lnow), [], [])).2.1) := by
    rw [recoverInflight, if_neg hne]
  have hrec0 : ((loadStore dbPath data lnow).staleRunning.foldl (recoverStep sb ctxOf rnow)
      ((loadStore dbPath data lnow), [], [])).1.recoveredPromptIds = [] := by
    rw [recoverFold_recoveredIds]
    show (loadStore dbPath data lnow).recoveredPromptIds = []
    rw [loadStore, loadFold_recovered]
    rfl
  have hupd := updateRecord_failed_fields sb (loadRecord id p lnow) rnow interruptedSummary
  refine ⟨?_, ?_, ?_, ?_, ?_, ?_⟩
  · rw [hri]
    show (dictGet id _).map PromptRecord.status = some "failed"
    rw [hmain.1]
    simp [hupd.1]
  · rw [hri]
    show (dictGet id _).map PromptRecord.resultSummary = some (some interruptedSummary)
    rw [hmain.1]
    simp [hupd.2.1]
  · rw [hri]
    dsimp only
    rw [hrec0, List.nil_append]
    simpa using hmain.2.1
  · rw [hri]
    dsimp only [consumeRecoveredPrompts]
    rw [hrec0, List.nil_append]
    simpa using hmain.2.1
  · rfl
  · rw [hri]
    simpa using hmain.2.2

/-- Context oracle used only by the witness below. -/
def c5ctx : Option String → String := fun _ => "project context"

/-- Payload and document used only by the witness below. -/
def c5payload : PersistedPayload :=
  { text := "do things", status := some "running",
    createdAt := "2026-01-01T00:00:00+00:00",
    updatedAt := "2026-01-01T00:05:00+00:00",
    logPath := "logs/prompt_p1.log" }

def c5data : List (String × PersistedPayload) := [("p1", c5payload)]

/-- Witness for `recover_inflight_rewrites_running` on a one-record
document persisted in `running`. -/
theorem recover_inflight_rewrites_running_witness :
    ((c5data.map Prod.fst).Nodup ∧
      ("p1", c5payload) ∈ c5data ∧
      effStatus c5payload = "running" ∧
      (∀ q ∈ c5data, q.1 ≠ "p1" → q.2.logPath ≠ c5payload.logPath)) ∧
    ((dictGet "p1" (recoverInflight sbNone c5ctx "2026-01-02T00:00:00+00:00"
        (loadStore "data/prompts.json" c5data "2026-01-02T00:00:00+00:00")).1.records).map
        PromptRecord.status = some "failed") := by
  refine ⟨⟨by decide, by decide, by decide, by decide⟩, ?_⟩
  exact (recover_inflight_rewrites_running sbNone c5ctx "data/prompts.json"
    "2026-01-02T00:00:00+00:00" "2026-01-02T00:00:00+00:00" c5data "p1" c5payload
    (by decide) (by decide) (by decide) (by decide)).1

/-! ## Codex Runner and Prompt Worker (`server.py:1067-1471`)

The runner's collaborators are oracles: `beginRun` is whatever the call
`self.branch_discipline.begin_run(...)` does (the attribute is assigned
nowhere in the committed module, so in the running program it raises
`AttributeError`; the oracle keeps the model general), `spawn` is the
whole child-process block (Popen, stdin write, pump threads, wait),
`statusFile` is the scope-guard status file read, `finalize` is
`finalize_run`, and `midCancelSummaries` are the summaries of `cancel`
calls that land while the run is in flight (each such call can only set
the target to this prompt, since `cancel` requires the active id to
match).

The import of `git_branching` is commented out at server.py:37, so the
`except GitBranchError` clauses at server.py:1202 and 1284 reference an
unbound name: when any exception reaches them, evaluating the clause
raises `NameError` and the original error escapes `CodexRunner.run`
unhandled.  `PromptWorker.run` (server.py:1372-1426) has a `finally` but
no `except`, so such an error terminates the worker thread.  Stream
broadcasting and the runner's own log block are presentation effects no
claim inspects and are not modelled. -/

inductive PyExc where
  | fileNotFound (msg : String)
  | gitBranchError (msg : String)
  | attributeError (msg : String)
  | nameError (msg : String)
  | otherError (name msg : String)
deriving DecidableEq

def pyExcMessage : PyExc → String
  | .fileNotFound msg => msg
  | .gitBranchError msg => msg
  | .attributeError msg => msg
  | .nameError msg => msg
  | .otherError _ msg => msg

/-- The `NameError` produced by the broken `except GitBranchError`
handler (unbound name; import commented out at server.py:37). -/
def gitBranchHandlerEscape : PyExc := .nameError "name GitBranchError is not defined"

structure GitSession where
  notes : List String
deriving DecidableEq

/-- Outcome of reading the scope-guard status file
(server.py:1265-1275): parsed with its `message` field, or unreadable
(`OSError`/`JSONDecodeError`). -/
inductive StatusRead where
  | readable (message : Option String)
  | unreadable
deriving DecidableEq

deriving instance DecidableEq for Except

structure RunnerEffects where
  beginRun : Except PyExc (Option GitSession)
  spawn : Except PyExc Int
  statusFile : Option StatusRead
  midCancelSummaries : List String
  finalize : Except PyExc (List String)
deriving DecidableEq

/-- `CodexRunner` mutable state (server.py:1079-1083); the process
handle is tracked only as "is a child alive". -/
structure RState where
  activePromptId : Option String
  processRunning : Option Bool
  cancelTarget : Option String
  cancelSummary : String
deriving DecidableEq

structure CancelResult where
  returned : Bool
  state : RState
  terminateSent : Bool
deriving DecidableEq

/-- `CodexRunner.cancel` (server.py:1089-1104). -/
def runnerCancel (rs : RState) (promptId summary : String) : CancelResult :=
  if rs.activePromptId == some promptId then
    { returned := true
      state := { rs with cancelTarget := some promptId, cancelSummary := summary }
      terminateSent := rs.processRunning == some true }
  else
    { returned := false, state := rs, terminateSent := false }

/-- The summary the spawn block's handlers produce
(server.py:1238-1245): `FileNotFoundError` has its own message, every
other exception is caught by `except Exception`. -/
def spawnFailureSummary (e : PyExc) : String :=
  match e with
  | .fileNotFound _ => "Codex CLI not found; logged placeholder output"
  | _ => "Codex invocation error: " ++ pyExcMessage e

structure RunResult where
  summary : String
  success : Bool
  canceled : Bool
  attemptStatus : String
  state : RState
  beginRunInvoked : Bool
  spawnAttempted : Bool
deriving DecidableEq

/-- `CodexRunner.run` (server.py:1106-1328).  An `Except.error` is an
exception escaping the method (with the runner state it leaves behind);
`git_setup_error` can never be set because its handler is the broken
`except GitBranchError`, so the git-setup-failed summary branch
(server.py:1258-1260) and the cleanup-error summaries
(server.py:1302-1307) are dead code. -/
def runnerRun (rs : RState) (eff : RunnerEffects) (promptId : String) :
    Except (PyExc × RState) RunResult :=
  let rs0 := { rs with activePromptId := some promptId }
  let skip := rs0.cancelTarget == some promptId
  let pendingSummary := if skip then rs0.cancelSummary else ""
  let beginPhase : Except PyExc (Option GitSession) :=
    if skip then .ok none
    else
      match eff.beginRun with
      | .error _ => .error gitBranchHandlerEscape
      | .ok sess => .ok sess
  match beginPhase with
  | .error e => .error (e, rs0)
  | .ok gitSession =>
    let spawnOutcome : Bool × String :=
      if !skip then
        match eff.spawn with
        | .ok rc =>
          if rc ≠ 0 then (false, s!"Codex failed with exit code {rc}")
          else (true, "Codex run succeeded")
        | .error e => (false, spawnFailureSummary e)
      else
        (false, pyOrStr pendingSummary "Codex run canceled before execution")
    let violationSummary :=
      match eff.statusFile with
      | none => ""
      | some (.readable msg) => pyStrip (msg.getD "")
      | some .unreadable => "Scope guard violation detected"
    let finalizePhase : Except PyExc Unit :=
      match gitSession with
      | none => .ok ()
      | some _ =>
        match eff.finalize with
        | .error _ => .error gitBranchHandlerEscape
        | .ok _ => .ok ()
    match finalizePhase with
    | .error e => .error (e, { rs0 with processRunning := none })
    | .ok _ =>
      let storedTarget :=
        if eff.midCancelSummaries.isEmpty then rs0.cancelTarget else some promptId
      let storedSummary := (eff.midCancelSummaries.getLast?).getD rs0.cancelSummary
      let canceled := storedTarget == some promptId
      let rsFinal : RState :=
        if canceled then
          { rs0 with cancelTarget := none, cancelSummary := "",
                     activePromptId := none, processRunning := none }
        else
          { rs0 with activePromptId := none, processRunning := none }
      let final : Bool × String :=
        if canceled then
          (false, pyOrStr storedSummary (pyOrStr spawnOutcome.2 "Prompt canceled by user"))
        else if violationSummary ≠ "" then (false, violationSummary)
        else spawnOutcome
      let attemptStatus :=
        if canceled then "canceled" else if final.1 then "completed" else "failed"
      .ok { summary := final.2, success := final.1, canceled := canceled,
            attemptStatus := attemptStatus, state := rsFinal,
            beginRunInvoked := !skip, spawnAttempted := !skip }

/-- `PromptWorker` mutable state (server.py:1368-1370);
`restartRequests` is a set. -/
structure WState where
  currentPromptId : Option String
  restartRequests : List String
deriving DecidableEq

def restartAdd (w : WState) (promptId : String) : WState :=
  if promptId ∈ w.restartRequests then w
  else { w with restartRequests := w.restartRequests ++ [promptId] }

def restartDiscard (w : WState) (promptId : String) : WState :=
  { w with restartRequests := w.restartRequests.filter (fun x => x ≠ promptId) }

/-- `PromptWorker._consume_restart_request` (server.py:1448-1453). -/
def consumeRestart (w : WState) (promptId : String) : Bool × WState :=
  if promptId ∈ w.restartRequests then (true, restartDiscard w promptId) else (false, w)

structure SystemS where
  store : PromptStoreS
  runner : RState
  worker : WState
deriving DecidableEq

/-- `PromptWorker.request_cancel` (server.py:1431-1446). -/
def requestCancel (sys : SystemS) (promptId : String) (restart : Bool) : Bool × SystemS :=
  let summary :=
    if restart then "Prompt canceled; restart requested" else "Prompt canceled by operator"
  if sys.worker.currentPromptId ≠ some promptId then (false, sys)
  else
    let w1 := if restart then restartAdd sys.worker promptId
      else restartDiscard sys.worker promptId
    let res := runnerCancel sys.runner promptId summary
    let w2 := if !res.returned && restart then restartDiscard w1 promptId else w1
    (res.returned, { sys with runner := res.state, worker := w2 })

inductive WorkerErr where
  | fromRunner (e : PyExc)
  | fromStore (e : StoreErr)
deriving DecidableEq

structure IterEffects where
  runEff : RunnerEffects
  beginNow : String
  endNow : String
deriving DecidableEq

/-- One iteration of `PromptWorker.run` (server.py:1372-1426).  The
second component is `some e` when the iteration raises: the loop has no
`except`, so the exception kills the worker thread, leaving the system
in the first component.  Store persistence is assumed to succeed here
(its failure is yet another uncaught path, settled with C2). -/
def workerIter (sb : Option String → Option String → Option Int)
    (sys : SystemS) (eff : IterEffects) : SystemS × Option WorkerErr :=
  match sys.store.pending with
  | [] => (sys, none)
  | promptId :: rest =>
    let store1 := { sys.store with pending := rest }
    match dictGet promptId store1.records with
    | none => ({ sys with store := store1 }, none)
    | some _ =>
      let runner1 := { sys.runner with activePromptId := some promptId }
      let worker1 := { sys.worker with currentPromptId := some promptId }
      match beginAttemptE sb store1 promptId eff.beginNow with
      | .error e => (⟨store1, runner1, worker1⟩, some (.fromStore e))
      | .ok (store2, _) =>
        match runnerRun runner1 eff.runEff promptId with
        | .error (e, rstate) =>
          (⟨store2, rstate, { worker1 with currentPromptId := none }⟩,
            some (.fromRunner e))
        | .ok res =>
          let worker2 := { worker1 with currentPromptId := none }
          if res.canceled then
            let consumed := consumeRestart worker2 promptId
            match markCanceledE sb store2 promptId res.summary eff.endNow with
            | .error e => (⟨store2, res.state, consumed.2⟩, some (.fromStore e))
            | .ok store3 =>
              if consumed.1 then
                match retryPromptE store3 promptId eff.endNow with
                | .ok store4 => (⟨store4, res.state, consumed.2⟩, none)
                | .error (.valueError _) => (⟨store3, res.state, consumed.2⟩, none)
                | .error e => (⟨store3, res.state, consumed.2⟩, some (.fromStore e))
              else (⟨store3, res.state, consumed.2⟩, none)
          else if res.success then
            match markCompletedE sb store2 promptId res.summary eff.endNow with
            | .error e => (⟨store2, res.state, worker2⟩, some (.fromStore e))
            | .ok store3 =>
              (⟨store3, res.state, restartDiscard worker2 promptId⟩, none)
          else
            match markFailedE sb store2 promptId res.summary eff.endNow with
            | .error e => (⟨store2, res.state, worker2⟩, some (.fromStore e))
            | .ok store3 =>
              (⟨store3, res.state, restartDiscard worker2 promptId⟩, none)

/-- C8 (confirmed): cancel on a prompt that is not the active (armed or
running) one returns false and is a no-op: `CodexRunner.cancel` records
nothing and signals no process, and `PromptWorker.request_cancel` on a
non-current prompt leaves the whole system — store records included —
untouched. -/
theorem cancel_inactive_noop (rs : RState) (sys : SystemS)
    (promptId summary : String) (restart : Bool)
    (h1 : rs.activePromptId ≠ some promptId)
    (h2 : sys.worker.currentPromptId ≠ some promptId) :
    runnerCancel rs promptId summary = ⟨false, rs, false⟩ ∧
    requestCancel sys promptId restart = (false, sys) := by
  constructor
  · simp [runnerCancel, h1]
  · simp [requestCancel, h2]

/-- Witness for `cancel_inactive_noop`. -/
theorem cancel_inactive_noop_witness :
    ((⟨some "active", some true, none, ""⟩ : RState).activePromptId ≠ some "other" ∧
      (⟨initStore "db", ⟨some "active", some true, none, ""⟩,
        ⟨some "active", []⟩⟩ : SystemS).worker.currentPromptId ≠ some "other") ∧
    (runnerCancel ⟨some "active", some true, none, ""⟩ "other" "stop" =
        ⟨false, ⟨some "active", some true, none, ""⟩, false⟩ ∧
      requestCancel ⟨initStore "db", ⟨some "active", some true, none, ""⟩,
          ⟨some "active", []⟩⟩ "other" true =
        (false, ⟨initStore "db", ⟨some "active", some true, none, ""⟩,
          ⟨some "active", []⟩⟩)) :=
  ⟨⟨by decide, by decide⟩,
   cancel_inactive_noop ⟨some "active", some true, none, ""⟩
     ⟨initStore "db", ⟨some "active", some true, none, ""⟩, ⟨some "active", []⟩⟩
     "other" "stop" true (by decide) (by decide)⟩

/-- C7 (amended): a cancel recorded against the armed prompt before the
pre-spawn checkpoint makes the Runner skip execution: no begin_run, no
child, outcome canceled with the stored summary — provided the stored
summary is non-empty (and no further cancel overwrites it mid-run). -/
theorem cancel_before_spawn_skips (rs : RState) (eff : RunnerEffects)
    (promptId summary : String)
    (harm : rs.activePromptId = some promptId)
    (hsum : summary ≠ "")
    (hmid : eff.midCancelSummaries = []) :
    runnerRun (runnerCancel rs promptId summary).state eff promptId =
      .ok { summary := summary, success := false, canceled := true,
            attemptStatus := "canceled",
            state := { rs with
              activePromptId := none, processRunning := none,
              cancelTarget := none, cancelSummary := "" },
            beginRunInvoked := false, spawnAttempted := false } := by
  have hc : (runnerCancel rs promptId summary).state =
      { rs with cancelTarget := some promptId, cancelSummary := summary } := by
    simp [runnerCancel, harm]
  rw [hc]
  simp [runnerRun, hmid, pyOrStr, hsum]

/-- Witness for `cancel_before_spawn_skips`. -/
theorem cancel_before_spawn_skips_witness :
    ((⟨some "p1", none, none, ""⟩ : RState).activePromptId = some "p1" ∧
      ("operator asked" : String) ≠ "" ∧
      ({ beginRun := .ok none, spawn := .ok 0, statusFile := none,
         midCancelSummaries := [], finalize := .ok [] } :
        RunnerEffects).midCancelSummaries = []) ∧
    runnerRun (runnerCancel ⟨some "p1", none, none, ""⟩ "p1" "operator asked").state
        { beginRun := .ok none, spawn := .ok 0, statusFile := none,
          midCancelSummaries := [], finalize := .ok [] } "p1" =
      .ok { summary := "operator asked", success := false, canceled := true,
            attemptStatus := "canceled",
            state := { activePromptId := none, processRunning := none,
                       cancelTarget := none, cancelSummary := "" },
            beginRunInvoked := false, spawnAttempted := false } :=
  ⟨⟨by decide, by decide, by decide⟩,
   cancel_before_spawn_skips ⟨some "p1", none, none, ""⟩
     { beginRun := .ok none, spawn := .ok 0, statusFile := none,
       midCancelSummaries := [], finalize := .ok [] }
     "p1" "operator asked" (by decide) (by decide) (by decide)⟩

/-- C7 counterexample: cancel recorded with an *empty* stored summary.
The run is still skipped and reported canceled, but the result summary is
the fallback "Codex run canceled before execution", not the stored
(empty) cancel summary. -/
theorem cancel_before_spawn_empty_summary_cex :
    ((runnerRun (runnerCancel ⟨some "p1", none, none, ""⟩ "p1" "").state
        { beginRun := .ok none, spawn := .ok 0, statusFile := none,
          midCancelSummaries := [], finalize := .ok [] } "p1").toOption.map
      RunResult.summary = some "Codex run canceled before execution") ∧
    ("Codex run canceled before execution" : String) ≠ "" := by
  refine ⟨by decide, by decide⟩

/-! ### C3 — error propagation through the worker loop

`PromptWorker.run` (server.py:1372-1426) wraps each iteration in
`try/finally` with *no* `except`: an exception raised inside the
iteration kills the worker thread.  The `except GitBranchError` handlers
inside `CodexRunner.run` (server.py:1202, 1284) reference an unbound
name (the import is commented out at server.py:37), so even the errors
the code meant to absorb escape as a `NameError`. -/

def exceptIsOk : Except ε α → Bool
  | .ok _ => true
  | .error _ => false

theorem runnerRun_ok_of (rs : RState) (eff : RunnerEffects) (promptId : String)
    (sess : Option GitSession) (notes : List String)
    (hb : eff.beginRun = .ok sess) (hf : eff.finalize = .ok notes) :
    exceptIsOk (runnerRun rs eff promptId) = true := by
  unfold runnerRun
  by_cases hskip : (rs.cancelTarget == some promptId) = true
  · simp [hskip, exceptIsOk]
  · cases sess with
    | none => simp [hb, hskip, exceptIsOk]
    | some s => simp [hb, hf, hskip, exceptIsOk]

theorem runnerRun_exists_ok (rs : RState) (eff : RunnerEffects) (promptId : String)
    (sess : Option GitSession) (notes : List String)
    (hb : eff.beginRun = .ok sess) (hf : eff.finalize = .ok notes) :
    ∃ res, runnerRun rs eff promptId = .ok res := by
  cases hrr : runnerRun rs eff promptId with
  | ok res => exact ⟨res, rfl⟩
  | error e =>
    have h := runnerRun_ok_of rs eff promptId sess notes hb hf
    rw [hrr] at h
    simp [exceptIsOk] at h

theorem updatePromptE_ok_eq (sb : Option String → Option String → Option Int)
    (s : PromptStoreS) (promptId : String) (ts : Option String) (now : String)
    (ns : Option String) (nsum : Option (Option String)) (r : PromptRecord)
    (h : dictGet promptId s.records = some r) :
    updatePromptE sb s promptId ts now ns nsum =
      .ok { s with records := dictSet promptId (updateRecord sb r (ts.getD now) ns nsum) s.records } := by
  simp [updatePromptE, h]

theorem retryPromptE_cases (s : PromptStoreS) (promptId now : String) (r : PromptRecord)
    (h : dictGet promptId s.records = some r) :
    retryPromptE s promptId now = .error (.valueError "prompt still running") ∨
    ∃ s2, retryPromptE s promptId now = .ok s2 := by
  by_cases hr : r.status = "running"
  · left
    simp [retryPromptE, h, hr]
  · right
    refine ⟨{ s with
        records := dictSet promptId
          { r with status := "queued", enqueuedAt := now, startedAt := none,
                   currentWaitSeconds := none, updatedAt := now } s.records,
        pending := s.pending ++ [promptId] }, ?_⟩
    simp [retryPromptE, h, hr]

def beginAttemptStore (sb : Option String → Option String → Option Int)
    (s : PromptStoreS) (promptId now : String) (r : PromptRecord) : PromptStoreS :=
  { s with records := dictSet promptId (beginAttemptRecord sb r now) s.records }

theorem beginAttemptE_ok_eq (sb : Option String → Option String → Option Int)
    (s : PromptStoreS) (promptId now : String) (r : PromptRecord)
    (h : dictGet promptId s.records = some r) :
    beginAttemptE sb s promptId now =
      .ok (beginAttemptStore sb s promptId now r, beginAttemptRecord sb r now) := by
  simp [beginAttemptE, beginAttemptStore, h]

theorem beginAttemptStore_get (sb : Option String → Option String → Option Int)
    (s : PromptStoreS) (promptId now : String) (r : PromptRecord) :
    dictGet promptId (beginAttemptStore sb s promptId now r).records =
      some (beginAttemptRecord sb r now) := by
  simp [beginAttemptStore, dictGet_dictSet]

def markedStore (sb : Option String → Option String → Option Int)
    (s : PromptStoreS) (promptId ns summary now : String) (r : PromptRecord) : PromptStoreS :=
  { s with records :=
      dictSet promptId (updateRecord sb r now (some ns) (some (some summary))) s.records }

theorem markCanceledE_ok_eq (sb : Option String → Option String → Option Int)
    (s : PromptStoreS) (promptId summary now : String) (r : PromptRecord)
    (h : dictGet promptId s.records = some r) :
    markCanceledE sb s promptId summary now =
      .ok (markedStore sb s promptId "canceled" summary now r) := by
  simp [markCanceledE, updatePromptE, markedStore, h]

theorem markCompletedE_ok_eq (sb : Option String → Option String → Option Int)
    (s : PromptStoreS) (promptId summary now : String) (r : PromptRecord)
    (h : dictGet promptId s.records = some r) :
    markCompletedE sb s promptId summary now =
      .ok (markedStore sb s promptId "completed" summary now r) := by
  simp [markCompletedE, updatePromptE, markedStore, h]

theorem markFailedE_ok_eq (sb : Option String → Option String → Option Int)
    (s : PromptStoreS) (promptId summary now : String) (r : PromptRecord)
    (h : dictGet promptId s.records = some r) :
    markFailedE sb s promptId summary now =
      .ok (markedStore sb s promptId "failed" summary now r) := by
  simp [markFailedE, updatePromptE, markedStore, h]

theorem markedStore_get (sb : Option String → Option String → Option Int)
    (s : PromptStoreS) (promptId ns summary now : String) (r : PromptRecord) :
    dictGet promptId (markedStore sb s promptId ns summary now r).records =
      some (updateRecord sb r now (some ns) (some (some summary))) := by
  simp [markedStore, dictGet_dictSet]

theorem workerIter_snd_eq_none (sb : Option String → Option String → Option Int)
    (sys : SystemS) (eff : IterEffects)
    (sess : Option GitSession) (notes : List String)
    (hb : eff.runEff.beginRun = .ok sess) (hf : eff.runEff.finalize = .ok notes) :
    (workerIter sb sys eff).2 = none := by
  rcases hpend : sys.store.pending with _ | ⟨promptId, rest⟩
  · simp [workerIter, hpend]
  · rcases hL : dictGet promptId sys.store.records with _ | r
    · simp [workerIter, hpend, hL]
    · have hL1 : dictGet promptId ({ sys.store with pending := rest } : PromptStoreS).records =
          some r := hL
      have hba := beginAttemptE_ok_eq sb { sys.store with pending := rest }
        promptId eff.beginNow r hL1
      obtain ⟨res, hrr⟩ := runnerRun_exists_ok { sys.runner with activePromptId := some promptId }
        eff.runEff promptId sess notes hb hf
      have hget2 := beginAttemptStore_get sb { sys.store with pending := rest }
        promptId eff.beginNow r
      by_cases hcan : res.canceled
      · have h3 := markCanceledE_ok_eq sb
          (beginAttemptStore sb { sys.store with pending := rest } promptId eff.beginNow r)
          promptId res.summary eff.endNow (beginAttemptRecord sb r eff.beginNow) hget2
        by_cases hmem : promptId ∈ sys.worker.restartRequests
        · rcases retryPromptE_cases
            (markedStore sb
              (beginAttemptStore sb { sys.store with pending := rest } promptId eff.beginNow r)
              promptId "canceled" res.summary eff.endNow (beginAttemptRecord sb r eff.beginNow))
            promptId eff.endNow
            (updateRecord sb (beginAttemptRecord sb r eff.beginNow) eff.endNow
              (some "canceled") (some (some res.summary)))
            (markedStore_get sb
              (beginAttemptStore sb { sys.store with pending := rest } promptId eff.beginNow r)
              promptId "canceled" res.summary eff.endNow
              (beginAttemptRecord sb r eff.beginNow)) with hret | hh
          · simp [workerIter, hpend, hL, hba, hrr, hcan, h3,
              consumeRestart, restartDiscard, hmem, hret]
          · obtain ⟨s4, hret⟩ := hh
            simp [workerIter, hpend, hL, hba, hrr, hcan, h3,
              consumeRestart, restartDiscard, hmem, hret]
        · simp [workerIter, hpend, hL, hba, hrr, hcan, h3, consumeRestart, hmem]
      · by_cases hsucc : res.success
        · have h3 := markCompletedE_ok_eq sb
            (beginAttemptStore sb { sys.store with pending := rest } promptId eff.beginNow r)
            promptId res.summary eff.endNow (beginAttemptRecord sb r eff.beginNow) hget2
          simp [workerIter, hpend, hL, hba, hrr, hcan, hsucc, h3]
        · have h3 := markFailedE_ok_eq sb
            (beginAttemptStore sb { sys.store with pending := rest } promptId eff.beginNow r)
            promptId res.summary eff.endNow (beginAttemptRecord sb r eff.beginNow) hget2
          simp [workerIter, hpend, hL, hba, hrr, hcan, hsucc, h3]

theorem runnerRun_spawn_error_eq (rs : RState) (eff : RunnerEffects) (promptId : String)
    (sess : Option GitSession) (notes : List String) (e : PyExc)
    (hct : rs.cancelTarget ≠ some promptId)
    (hb : eff.beginRun = .ok sess) (hsp : eff.spawn = .error e)
    (hstat : eff.statusFile = none) (hmid : eff.midCancelSummaries = [])
    (hf : eff.finalize = .ok notes) :
    runnerRun rs eff promptId =
      .ok { summary := spawnFailureSummary e, success := false, canceled := false,
            attemptStatus := "failed",
            state := { rs with activePromptId := none, processRunning := none },
            beginRunInvoked := true, spawnAttempted := true } := by
  have hcb : (rs.cancelTarget == some promptId) = false := beq_eq_false_iff_ne.mpr hct
  cases sess with
  | none => simp [runnerRun, hcb, hb, hsp, hstat, hmid, hf, pyOrStr]
  | some s => simp [runnerRun, hcb, hb, hsp, hstat, hmid, hf, pyOrStr]

/-- C3 (amended): provided the Branch Discipline steps (`begin_run` /
finalize) return normally, a worker iteration lets no exception escape:
runner-level failures — in particular an Agent CLI spawn failure — are
captured and transformed into a failed-status transition for the
processed prompt, whose record ends `failed` with the spawn handler's
summary, and the loop proceeds.  (Without that proviso the claim is
false: see the counterexample — the loop has no `except`, and even
`GitBranchError` would escape because its handler references an unbound
name.) -/
theorem worker_captures_spawn_errors
    (sb : Option String → Option String → Option Int)
    (sys : SystemS) (eff : IterEffects)
    (sess : Option GitSession) (notes : List String)
    (hb : eff.runEff.beginRun = .ok sess)
    (hf : eff.runEff.finalize = .ok notes) :
    (workerIter sb sys eff).2 = none ∧
    ∀ promptId rest r e,
      sys.store.pending = promptId :: rest →
      dictGet promptId sys.store.records = some r →
      sys.runner.cancelTarget ≠ some promptId →
      eff.runEff.spawn = .error e →
      eff.runEff.statusFile = none →
      eff.runEff.midCancelSummaries = [] →
      (dictGet promptId (workerIter sb sys eff).1.store.records).map PromptRecord.status =
        some "failed" ∧
      (dictGet promptId (workerIter sb sys eff).1.store.records).map PromptRecord.resultSummary =
        some (some (spawnFailureSummary e)) := by
  refine ⟨workerIter_snd_eq_none sb sys eff sess notes hb hf, ?_⟩
  intro promptId rest r e hpend hL hct hsp hstat hmid
  have hL1 : dictGet promptId ({ sys.store with pending := rest } : PromptStoreS).records =
      some r := hL
  have hba := beginAttemptE_ok_eq sb { sys.store with pending := rest }
    promptId eff.beginNow r hL1
  have hct1 : ({ sys.runner with activePromptId := some promptId } : RState).cancelTarget ≠
      some promptId := hct
  have hrr := runnerRun_spawn_error_eq { sys.runner with activePromptId := some promptId }
    eff.runEff promptId sess notes e hct1 hb hsp hstat hmid hf
  have hget2 := beginAttemptStore_get sb { sys.store with pending := rest }
    promptId eff.beginNow r
  have h3 := markFailedE_ok_eq sb
    (beginAttemptStore sb { sys.store with pending := rest } promptId eff.beginNow r)
    promptId (spawnFailureSummary e) eff.endNow (beginAttemptRecord sb r eff.beginNow) hget2
  have hiter : (workerIter sb sys eff).1.store =
      markedStore sb
        (beginAttemptStore sb { sys.store with pending := rest } promptId eff.beginNow r)
        promptId "failed" (spawnFailureSummary e) eff.endNow
        (beginAttemptRecord sb r eff.beginNow) := by
    simp [workerIter, hpend, hL, hba, hrr, h3]
  have hfields := updateRecord_failed_fields sb (beginAttemptRecord sb r eff.beginNow)
    eff.endNow (spawnFailureSummary e)
  rw [hiter, markedStore_get]
  exact ⟨by simp [hfields.1], by simp [hfields.2.1]⟩

def c3wSys : SystemS :=
  { store := addPrompt (initStore "db") "p1" "inspect the build" none "t0",
    runner := { activePromptId := none, processRunning := none,
                cancelTarget := none, cancelSummary := "" },
    worker := { currentPromptId := none, restartRequests := [] } }

def c3wEff : IterEffects :=
  { runEff := { beginRun := .ok none, spawn := .error (.fileNotFound "codex missing"),
                statusFile := none, midCancelSummaries := [], finalize := .ok [] },
    beginNow := "t1", endNow := "t2" }

/-- Witness for `worker_captures_spawn_errors`: one queued prompt, a
spawn that raises `FileNotFoundError`. -/
theorem worker_captures_spawn_errors_witness :
    (c3wEff.runEff.beginRun = .ok none ∧ c3wEff.runEff.finalize = .ok []) ∧
    ((workerIter sbNone c3wSys c3wEff).2 = none ∧
     ∀ promptId rest r e,
       c3wSys.store.pending = promptId :: rest →
       dictGet promptId c3wSys.store.records = some r →
       c3wSys.runner.cancelTarget ≠ some promptId →
       c3wEff.runEff.spawn = .error e →
       c3wEff.runEff.statusFile = none →
       c3wEff.runEff.midCancelSummaries = [] →
       (dictGet promptId (workerIter sbNone c3wSys c3wEff).1.store.records).map
           PromptRecord.status = some "failed" ∧
       (dictGet promptId (workerIter sbNone c3wSys c3wEff).1.store.records).map
           PromptRecord.resultSummary = some (some (spawnFailureSummary e))) :=
  ⟨⟨by decide, by decide⟩,
   worker_captures_spawn_errors sbNone c3wSys c3wEff none [] (by decide) (by decide)⟩

def c3cEff : IterEffects :=
  { runEff := { beginRun := .error
                  (.attributeError "CodexRunner object has no attribute branch_discipline"),
                spawn := .ok 0, statusFile := none, midCancelSummaries := [],
                finalize := .ok [] },
    beginNow := "t1", endNow := "t2" }

/-- C3 counterexample: an error raised while invoking Branch Discipline
(`self.branch_discipline` is never assigned) reaches the `except
GitBranchError` handler, whose name is unbound (import commented out at
server.py:37), so a `NameError` escapes `CodexRunner.run`;
`PromptWorker.run` has no `except`, so the iteration raises — killing
the worker thread — and the prompt record is left `running`, not
transitioned to `failed`. -/
theorem worker_uncaught_error_cex :
    (workerIter sbNone c3wSys c3cEff).2 =
      some (.fromRunner (.nameError "name GitBranchError is not defined")) ∧
    (dictGet "p1" (workerIter sbNone c3wSys c3cEff).1.store.records).map PromptRecord.status =
      some "running" := by
  decide

/-! ### C6 — Scope Guard violations: guard monitor, exit code 86 and the
failed record

`COMMAND_EXIT_RE` (scope_guard.py:26) recognizes command-exit lines; the
non-greedy `.+?` makes the *shortest* command prefix win, `.` never
matches a newline, and `re.match` anchors at the start only.
`CommandMonitor.process_line` (scope_guard.py:279-300) scans the dirty
tracker on each such line, and `ScopeGuard.handle_violation`
(scope_guard.py:226-248) records the sticky violation payload, writes
the status file, appends the violation log and reverts the offending
paths.  `GuardedProcess.run` (scope_guard.py:352-386) returns 86
whenever the guard is violated, whatever the child returned.  The
tracker is always present on this path (`main` bails out earlier
otherwise, scope_guard.py:416-420). -/

def dropPre : List Char → List Char → Option (List Char)
  | [], l => some l
  | _ :: _, [] => none
  | p :: ps, c :: cs => if c = p then dropPre ps cs else none

/-- Matches `" exited -?\d+ in [0-9.]+ms:"` as a prefix of `l` (the part
of `COMMAND_EXIT_RE` after the command group; each piece is
deterministic, since no repeated class contains the character that
follows it). -/
def exitSuffixOk (l : List Char) : Bool :=
  match dropPre " exited ".data l with
  | none => false
  | some l1 =>
    let l2 := if l1.head? = some '-' then l1.tail else l1
    if (l2.takeWhile Char.isDigit).isEmpty then false
    else
      match dropPre " in ".data (l2.dropWhile Char.isDigit) with
      | none => false
      | some l4 =>
        if (l4.takeWhile (fun c => c.isDigit || c = '.')).isEmpty then false
        else (dropPre "ms:".data (l4.dropWhile (fun c => c.isDigit || c = '.'))).isSome

/-- Scan for the shortest non-empty newline-free command prefix whose
remainder matches the exit suffix — `re.match` with a non-greedy group. -/
def commandExitScan : List Char → List Char → Option (List Char)
  | _, [] => none
  | acc, c :: rest =>
    if c = '\n' then none
    else if exitSuffixOk rest then some (acc ++ [c])
    else commandExitScan (acc ++ [c]) rest

/-- `COMMAND_EXIT_RE.match` (scope_guard.py:26, 282), returning the
`command` group. -/
def commandExitMatch (line : String) : Option String :=
  (commandExitScan [] line.data).map String.mk

/-- The violation message (scope_guard.py:231-234). -/
def scopeBlockedMessage (command : String) (normalized : List String) : String :=
  "Scope guard blocked " ++ command ++ " touching disallowed paths: " ++
    String.intercalate ", " normalized

/-- The guard-visible filesystem side effects: status file content,
violation-log lines, and the paths handed to `revert_paths`. -/
structure GuardWorld where
  statusFile : Option ViolationPayload
  violationLog : List VioEntry
  reverted : List String
deriving DecidableEq

/-- `ScopeGuard.handle_violation` (scope_guard.py:226-248): sticky — a
second violation only re-reports the stored message. -/
def handleViolation (g : ScopeGuardS) (w : GuardWorld) (command : String)
    (paths : List String) (timestamp : String) : String × ScopeGuardS × GuardWorld :=
  match g.violationInfo with
  | some info => (info.message, g, w)
  | none =>
    let normalized := paths.map sgNormalizePath
    let message := scopeBlockedMessage command normalized
    let payload : ViolationPayload :=
      { timestamp := timestamp, promptId := g.promptId, projectId := g.projectId,
        paths := normalized, message := message, command := command }
    (message,
     { g with violationInfo := some payload },
     { statusFile := some payload,
       violationLog := w.violationLog ++ paths.map (fun p =>
         { timestamp := timestamp, promptId := g.promptId, projectId := g.projectId,
           path := sgNormalizePath p, command := command }),
       reverted := w.reverted ++ paths })

/-- One observed output line with the git/stat facts the tracker would
see at that moment (and after the revert, for the closing `refresh`). -/
structure LineObs where
  line : String
  fs : TrackerFs
  fsAfter : TrackerFs
  timestamp : String

/-- Monitor-side state: the guard, the tracker baseline, the effect
world and whether the child was signalled. -/
structure MonitorS where
  guard : ScopeGuardS
  tracker : List (String × FileState)
  world : GuardWorld
  terminateSent : Bool

/-- `CommandMonitor.process_line` (scope_guard.py:279-300). -/
def processLine (m : MonitorS) (obs : LineObs) : MonitorS :=
  if m.guard.violationInfo.isSome then m
  else
    match commandExitMatch (pyStrip obs.line) with
    | none => m
    | some command =>
      let scanRes := trackerScan m.tracker obs.fs
      if scanRes.1.isEmpty then { m with tracker := scanRes.2 }
      else
        let violations := findViolations m.guard scanRes.1
        if violations.isEmpty then { m with tracker := scanRes.2 }
        else
          let hv := handleViolation m.guard m.world command violations obs.timestamp
          { guard := hv.2.1, tracker := trackerRefresh obs.fsAfter,
            world := hv.2.2, terminateSent := true }

/-- `GuardedProcess.run` (scope_guard.py:352-386): pump the lines, then
return 86 if the guard was violated, else the child's own code. -/
def guardedRunExit (m0 : MonitorS) (lineObsList : List LineObs) (returnCode : Int) :
    Int × MonitorS :=
  let mFinal := lineObsList.foldl processLine m0
  (if mFinal.guard.violationInfo.isSome then 86 else returnCode, mFinal)

def listBegins : List Char → List Char → Bool
  | [], _ => true
  | _ :: _, [] => false
  | p :: ps, c :: cs => p = c && listBegins ps cs

/-- Python `str.startswith`. -/
def strBeginsWith (pre s : String) : Bool :=
  listBegins pre.data s.data

theorem listBegins_append (p r : List Char) : listBegins p (p ++ r) = true := by
  induction p with
  | nil => rfl
  | cons c cs ih => simp [listBegins, ih]

theorem dropWhile_append_ex (p : Char → Bool) (x y : List Char)
    (h : ∃ c ∈ x, p c = false) :
    (x ++ y).dropWhile p = x.dropWhile p ++ y := by
  induction x with
  | nil =>
    obtain ⟨c, hc, _⟩ := h
    simp at hc
  | cons a xs ih =>
    by_cases ha : p a = true
    · obtain ⟨c, hc, hpc⟩ := h
      rcases List.mem_cons.mp hc with hca | hcs
      · rw [hca] at hpc
        rw [hpc] at ha
        cases ha
      · simp [List.dropWhile_cons, ha, ih ⟨c, hcs, hpc⟩]
    · simp [List.dropWhile_cons, ha]

theorem strBeginsWith_scopeBlocked (command : String) (normalized : List String) :
    strBeginsWith "Scope guard blocked" (pyStrip (scopeBlockedMessage command normalized)) =
      true := by
  have hdata : (scopeBlockedMessage command normalized).data =
      ("Scope guard blocked" : String).data ++
        ((" " : String).data ++ (command.data ++
          ((" touching disallowed paths: " : String).data ++
            (String.intercalate ", " normalized).data))) := by
    have hlit : ("Scope guard blocked " : String).data =
        ("Scope guard blocked" : String).data ++ (" " : String).data := by decide
    simp [scopeBlockedMessage, hlit]
  show listBegins ("Scope guard blocked" : String).data
      ((((scopeBlockedMessage command normalized).data.dropWhile pyIsSpace).reverse.dropWhile
        pyIsSpace).reverse) = true
  rw [hdata]
  have hS : (("Scope guard blocked" : String).data) =
      'S' :: ("cope guard blocked" : String).data := by decide
  rw [hS, List.cons_append, List.dropWhile_cons, if_neg (by decide), ← List.cons_append, ← hS]
  rw [List.reverse_append]
  have hex : ∃ c ∈ ((" " : String).data ++ (command.data ++
      ((" touching disallowed paths: " : String).data ++
        (String.intercalate ", " normalized).data))).reverse, pyIsSpace c = false := by
    refine ⟨':', ?_, by decide⟩
    rw [List.mem_reverse]
    exact List.mem_append.mpr (Or.inr (List.mem_append.mpr (Or.inr
      (List.mem_append.mpr (Or.inl (by decide))))))
  rw [dropWhile_append_ex pyIsSpace _ _ hex, List.reverse_append, List.reverse_reverse]
  exact listBegins_append _ _

theorem processLine_violated (m : MonitorS) (obs : LineObs)
    (h : m.guard.violationInfo.isSome = true) : processLine m obs = m := by
  unfold processLine
  simp [h]

theorem foldl_processLine_violated (lineObsList : List LineObs) (m0 : MonitorS)
    (h : m0.guard.violationInfo.isSome = true) :
    lineObsList.foldl processLine m0 = m0 := by
  induction lineObsList with
  | nil => rfl
  | cons obs rest ih =>
    rw [List.foldl_cons, processLine_violated m0 obs h]
    exact ih

theorem runnerRun_violation_eq (rs : RState) (eff : RunnerEffects) (promptId : String)
    (sess : Option GitSession) (notes : List String) (msg : String)
    (hct : rs.cancelTarget ≠ some promptId)
    (hb : eff.beginRun = .ok sess)
    (hstat : eff.statusFile = some (.readable (some msg)))
    (hmsg : pyStrip msg ≠ "")
    (hmid : eff.midCancelSummaries = [])
    (hf : eff.finalize = .ok notes) :
    runnerRun rs eff promptId =
      .ok { summary := pyStrip msg, success := false, canceled := false,
            attemptStatus := "failed",
            state := { rs with activePromptId := none, processRunning := none },
            beginRunInvoked := true, spawnAttempted := true } := by
  have hcb : (rs.cancelTarget == some promptId) = false := beq_eq_false_iff_ne.mpr hct
  cases sess with
  | none => simp [runnerRun, hcb, hb, hstat, hmsg, hmid, hf]
  | some s => simp [runnerRun, hcb, hb, hstat, hmsg, hmid, hf]


/-- C6 (amended): (i) when a command-exit line's tracker scan finds
changed paths of which some classify deny, the guard records the sticky
violation payload, writes it to the status file with the message
`"Scope guard blocked <command> touching disallowed paths: ..."`, and
signals the child; (ii) once violated the guard state never changes
again and the supervisor exits 86 regardless of the child's own return
code; (iii) on the backend, a run whose guard status file is readable
with a non-empty stripped message — provided no cancel was recorded for
the prompt — ends with the prompt record `failed` and exactly that
stripped message as the result summary; (iv) the stripped violation
message always begins with `"Scope guard blocked"`.  Without the
no-cancel proviso in (iii) the claim fails: see the counterexample. -/
theorem scope_violation_exit86_and_blocked_record :
    (∀ (m : MonitorS) (obs : LineObs) (command : String) (touched : List String)
        (st2 : List (String × FileState)) (violations : List String),
      m.guard.violationInfo = none →
      commandExitMatch (pyStrip obs.line) = some command →
      trackerScan m.tracker obs.fs = (touched, st2) →
      findViolations m.guard touched = violations →
      violations ≠ [] →
      ∃ payload : ViolationPayload,
        (processLine m obs).guard.violationInfo = some payload ∧
        (processLine m obs).world.statusFile = some payload ∧
        payload.message = scopeBlockedMessage command (violations.map sgNormalizePath) ∧
        (processLine m obs).terminateSent = true) ∧
    (∀ (m0 : MonitorS) (lineObsList : List LineObs) (rc : Int),
      m0.guard.violationInfo.isSome = true →
      lineObsList.foldl processLine m0 = m0 ∧
      (guardedRunExit m0 lineObsList rc).1 = 86) ∧
    (∀ (sb : Option String → Option String → Option Int) (sys : SystemS)
        (eff : IterEffects) (sess : Option GitSession) (notes : List String)
        (promptId : String) (rest : List String) (r : PromptRecord) (msg : String),
      eff.runEff.beginRun = .ok sess →
      eff.runEff.finalize = .ok notes →
      sys.store.pending = promptId :: rest →
      dictGet promptId sys.store.records = some r →
      sys.runner.cancelTarget ≠ some promptId →
      eff.runEff.midCancelSummaries = [] →
      eff.runEff.statusFile = some (.readable (some msg)) →
      pyStrip msg ≠ "" →
      (dictGet promptId (workerIter sb sys eff).1.store.records).map PromptRecord.status =
        some "failed" ∧
      (dictGet promptId (workerIter sb sys eff).1.store.records).map
        PromptRecord.resultSummary = some (some (pyStrip msg))) ∧
    (∀ (command : String) (normalized : List String),
      strBeginsWith "Scope guard blocked" (pyStrip (scopeBlockedMessage command normalized)) =
        true) := by
  refine ⟨?_, ?_, ?_, ?_⟩
  · intro m obs command touched st2 violations hnone hcm hscan hfv hne
    have hvsome : m.guard.violationInfo.isSome = false := by rw [hnone]; rfl
    have htouched : touched.isEmpty = false := by
      cases htc : touched with
      | nil =>
        rw [htc] at hfv
        exact absurd (hfv.symm.trans rfl) hne
      | cons a l => rfl
    have hviol : violations.isEmpty = false := by
      cases hvc : violations with
      | nil => exact absurd hvc hne
      | cons a l => rfl
    refine ⟨{ timestamp := obs.timestamp, promptId := m.guard.promptId,
              projectId := m.guard.projectId,
              paths := violations.map sgNormalizePath,
              message := scopeBlockedMessage command (violations.map sgNormalizePath),
              command := command }, ?_, ?_, rfl, ?_⟩
    · simp [processLine, hvsome, hcm, hscan, hfv, htouched, hviol, handleViolation, hnone]
    · simp [processLine, hvsome, hcm, hscan, hfv, htouched, hviol, handleViolation, hnone]
    · simp [processLine, hvsome, hcm, hscan, hfv, htouched, hviol, handleViolation, hnone]
  · intro m0 lineObsList rc h
    refine ⟨foldl_processLine_violated lineObsList m0 h, ?_⟩
    unfold guardedRunExit
    rw [foldl_processLine_violated lineObsList m0 h]
    simp [h]
  · intro sb sys eff sess notes promptId rest r msg hb hf hpend hL hct hmid hstat hmsg
    have hL1 : dictGet promptId ({ sys.store with pending := rest } : PromptStoreS).records =
        some r := hL
    have hba := beginAttemptE_ok_eq sb { sys.store with pending := rest }
      promptId eff.beginNow r hL1
    have hct1 : ({ sys.runner with activePromptId := some promptId } : RState).cancelTarget ≠
        some promptId := hct
    have hrr := runnerRun_violation_eq { sys.runner with activePromptId := some promptId }
      eff.runEff promptId sess notes msg hct1 hb hstat hmsg hmid hf
    have hget2 := beginAttemptStore_get sb { sys.store with pending := rest }
      promptId eff.beginNow r
    have h3 := markFailedE_ok_eq sb
      (beginAttemptStore sb { sys.store with pending := rest } promptId eff.beginNow r)
      promptId (pyStrip msg) eff.endNow (beginAttemptRecord sb r eff.beginNow) hget2
    have hiter : (workerIter sb sys eff).1.store =
        markedStore sb
          (beginAttemptStore sb { sys.store with pending := rest } promptId eff.beginNow r)
          promptId "failed" (pyStrip msg) eff.endNow (beginAttemptRecord sb r eff.beginNow) := by
      simp [workerIter, hpend, hL, hba, hrr, h3]
    have hfields := updateRecord_failed_fields sb (beginAttemptRecord sb r eff.beginNow)
      eff.endNow (pyStrip msg)
    rw [hiter, markedStore_get]
    exact ⟨by simp [hfields.1], by simp [hfields.2.1]⟩
  · intro command normalized
    exact strBeginsWith_scopeBlocked command normalized

def g6 : ScopeGuardS := mkScopeGuard ⟨[], [some "secrets/*"], []⟩ "p6" "proj"

def fs6 : TrackerFs :=
  { tracked := ["secrets/key.txt"], untracked := [], deleted := [],
    fileState := fun _ => ⟨true, 1, 1⟩ }

def m6 : MonitorS :=
  { guard := g6, tracker := [], world := ⟨none, [], []⟩, terminateSent := false }

def obs6 : LineObs :=
  { line := "  rm -rf exited 1 in 12.5ms: boom\n", fs := fs6, fsAfter := fs6,
    timestamp := "ts" }

def payload6 : ViolationPayload :=
  { timestamp := "ts", promptId := "p6", projectId := "proj",
    paths := ["secrets/key.txt"],
    message := scopeBlockedMessage "rm -rf" ["secrets/key.txt"], command := "rm -rf" }

def m6v : MonitorS := { m6 with guard := { g6 with violationInfo := some payload6 } }

def c6wRec : PromptRecord :=
  { promptId := "p6", text := "build the site", status := "queued", createdAt := "t0",
    updatedAt := "t0", enqueuedAt := "t0", logPath := "logs/prompt_p6.log" }

def c6wSys : SystemS :=
  { store := addPrompt (initStore "db") "p6" "build the site" none "t0",
    runner := ⟨none, none, none, ""⟩, worker := ⟨none, []⟩ }

def c6wMsg : String :=
  "Scope guard blocked rm -rf touching disallowed paths: secrets/key.txt"

def c6wEff : IterEffects :=
  { runEff := { beginRun := .ok none, spawn := .ok 0,
                statusFile := some (.readable (some c6wMsg)),
                midCancelSummaries := [], finalize := .ok [] },
    beginNow := "t1", endNow := "t2" }

/-- Witness for `scope_violation_exit86_and_blocked_record`: a `rm -rf`
exit line whose scan shows a denied path, a violated monitor processing
one more line with child code 0, and a backend run whose status file
carries the blocking message. -/
theorem scope_violation_exit86_witness :
    (m6.guard.violationInfo = none ∧
     commandExitMatch (pyStrip obs6.line) = some "rm -rf" ∧
     trackerScan m6.tracker obs6.fs = (["secrets/key.txt"], snapshot obs6.fs) ∧
     findViolations m6.guard ["secrets/key.txt"] = ["secrets/key.txt"] ∧
     (["secrets/key.txt"] : List String) ≠ [] ∧
     m6v.guard.violationInfo.isSome = true ∧
     c6wEff.runEff.beginRun = .ok none ∧
     c6wEff.runEff.finalize = .ok [] ∧
     c6wSys.store.pending = ["p6"] ∧
     dictGet "p6" c6wSys.store.records = some c6wRec ∧
     c6wSys.runner.cancelTarget ≠ some "p6" ∧
     c6wEff.runEff.midCancelSummaries = [] ∧
     c6wEff.runEff.statusFile = some (.readable (some c6wMsg)) ∧
     pyStrip c6wMsg ≠ "") ∧
    ((∃ payload : ViolationPayload,
        (processLine m6 obs6).guard.violationInfo = some payload ∧
        (processLine m6 obs6).world.statusFile = some payload ∧
        payload.message =
          scopeBlockedMessage "rm -rf" (["secrets/key.txt"].map sgNormalizePath) ∧
        (processLine m6 obs6).terminateSent = true) ∧
     ([obs6].foldl processLine m6v = m6v ∧ (guardedRunExit m6v [obs6] 0).1 = 86) ∧
     ((dictGet "p6" (workerIter sbNone c6wSys c6wEff).1.store.records).map
          PromptRecord.status = some "failed" ∧
      (dictGet "p6" (workerIter sbNone c6wSys c6wEff).1.store.records).map
          PromptRecord.resultSummary = some (some (pyStrip c6wMsg))) ∧
     strBeginsWith "Scope guard blocked"
       (pyStrip (scopeBlockedMessage "rm -rf" ["secrets/key.txt"])) = true) := by
  have hfv : findViolations m6.guard ["secrets/key.txt"] = ["secrets/key.txt"] := by
    simp [findViolations, m6, g6, mkScopeGuard, sgNormalizePatterns, sgNormalizeOnePattern,
      classifyPath, sgNormalizePath, dropDotSlashLoop, pyReplaceBackslash, sgMatches,
      fnmatchcase, globMatch, pyStrip, pyLstripDotSlash, pyIsSpace]
  refine ⟨⟨rfl, by decide, by decide, hfv, by decide, rfl, by decide, by decide, by decide,
           by decide, by decide, by decide, by decide, by decide⟩, ?_, ?_, ?_, ?_⟩
  · exact scope_violation_exit86_and_blocked_record.1 m6 obs6 "rm -rf" ["secrets/key.txt"]
      (snapshot obs6.fs) ["secrets/key.txt"] rfl (by decide) (by decide) hfv (by decide)
  · exact scope_violation_exit86_and_blocked_record.2.1 m6v [obs6] 0 rfl
  · exact scope_violation_exit86_and_blocked_record.2.2.1 sbNone c6wSys c6wEff none [] "p6"
      [] c6wRec c6wMsg (by decide) (by decide) (by decide) (by decide) (by decide)
      (by decide) (by decide) (by decide)
  · exact scope_violation_exit86_and_blocked_record.2.2.2 "rm -rf" ["secrets/key.txt"]

def c6cSys : SystemS :=
  { store := addPrompt (initStore "db") "p7" "deploy" none "t0",
    runner := ⟨none, none, none, ""⟩, worker := ⟨none, []⟩ }

def c6cEff : IterEffects :=
  { runEff := { beginRun := .ok none, spawn := .ok 0,
                statusFile := some (.readable
                  (some "Scope guard blocked rm touching disallowed paths: secrets.txt")),
                midCancelSummaries := ["Prompt canceled by operator"],
                finalize := .ok [] },
    beginNow := "t1", endNow := "t2" }

/-- C6 counterexample: a violation is on record (readable status file
with a blocking message), but a cancel lands during the same run; the
cancel wins (server.py:1288-1298), so the attempt is recorded
`canceled` with the cancel summary — not `failed` with a summary
beginning `"Scope guard blocked"`. -/
theorem scope_violation_cancel_race_cex :
    (dictGet "p7" (workerIter sbNone c6cSys c6cEff).1.store.records).map
        PromptRecord.status = some "canceled" ∧
    (dictGet "p7" (workerIter sbNone c6cSys c6cEff).1.store.records).map
        PromptRecord.resultSummary = some (some "Prompt canceled by operator") ∧
    strBeginsWith "Scope guard blocked" "Prompt canceled by operator" = false := by
  decide
